import Mathlib

/-!
Verification development for the space-communications stack:
a shallow embedding of the deep-space transport protocol
(src/communication/protocols/deep_space_protocol.py), the adaptive
multiband radio (src/communication/multiband_radio.py) and the
topology/routing manager (src/core/space_network.py), together with
theorems settling the specification claims about them.

Modelling conventions:
- Python byte strings are modelled as List Nat (one Nat per byte);
  string encoding is modelled by Unicode code points (the node and
  packet identifiers the code builds are ASCII, where the two agree).
- time.time() is modelled by an explicit natural-number parameter now
  (seconds); the float timestamp of a packet is likewise a Nat, and the
  8-byte IEEE-754 encoding produced by struct.pack is modelled by an
  8-byte integer encoding (the claims under study depend only on which
  fields enter an encoding, never on the bit layout of doubles).
- SHA-256 (hashlib.sha256(...).hexdigest()) is modelled by an abstract
  parameter hash : List Nat -> String; every theorem about checksums
  holds for an arbitrary hash function, which captures exactly the
  dependence of the digest on the encoded field bytes.
- Python dicts are modelled as association lists in insertion order
  (assignment replaces in place, new keys append at the end).
- asyncio side effects (task creation, sleeps, transmissions, log
  records) are modelled as an explicit event trace returned alongside
  the new state; random simulation inputs (channel draws) are explicit
  parameters.
-/

namespace IoST

/-! ### Byte-level helpers -/

/-- Bytes of a Python str .encode(), modelled by code points (ASCII-faithful). -/
def strBytes (s : String) : List Nat :=
  s.data.map Char.toNat

/-- struct.pack of a 4-byte unsigned int, little-endian (native format "I"). -/
def packUInt32 (n : Nat) : List Nat :=
  [n % 256, n / 256 % 256, n / 256 ^ 2 % 256, n / 256 ^ 3 % 256]

/-- struct.pack("d", timestamp): the 8-byte encoding of the timestamp.
The claims depend only on the timestamp entering the encoded data, so the
double's bit layout is modelled by an 8-byte integer encoding. -/
def packTimestamp (n : Nat) : List Nat :=
  [n % 256, n / 256 % 256, n / 256 ^ 2 % 256, n / 256 ^ 3 % 256,
   n / 256 ^ 4 % 256, n / 256 ^ 5 % 256, n / 256 ^ 6 % 256, n / 256 ^ 7 % 256]

/-- struct.pack of a 4-byte unsigned int, big-endian (network format "!I"). -/
def packUInt32BE (n : Nat) : List Nat :=
  [n / 256 ^ 3 % 256, n / 256 ^ 2 % 256, n / 256 % 256, n % 256]

/-- Big-endian 8-byte encoding of the timestamp for the "!...d" header pack. -/
def packTimestampBE (n : Nat) : List Nat :=
  [n / 256 ^ 7 % 256, n / 256 ^ 6 % 256, n / 256 ^ 5 % 256, n / 256 ^ 4 % 256,
   n / 256 ^ 3 % 256, n / 256 ^ 2 % 256, n / 256 % 256, n % 256]

/-- Truncate a byte string to k bytes and null-pad up to k bytes
(Python: data[:k].ljust(k, b"\x00"), also the padding of struct "32s"). -/
def padTrunc (k : Nat) (bs : List Nat) : List Nat :=
  bs.take k ++ List.replicate (k - (bs.take k).length) 0

/-- Decode a byte string back to a str (code-point model, see strBytes). -/
def decodeBytes (bs : List Nat) : String :=
  String.mk (bs.map Char.ofNat)

/-- Python str.strip("\x00"): drop leading and trailing NUL characters. -/
def stripNulls (s : String) : String :=
  String.mk (((s.data.dropWhile (· = Char.ofNat 0)).reverse.dropWhile
    (· = Char.ofNat 0)).reverse)

/-! ### Association lists standing for Python dicts -/

/-- dict lookup: d.get(k) / k in d. -/
def lookupA {β : Type} (k : String) : List (String × β) → Option β
  | [] => none
  | (k', v) :: rest => if k' = k then some v else lookupA k rest

/-- dict assignment d[k] = v: replace in place, or append a new key at the end. -/
def insertA {β : Type} (k : String) (v : β) : List (String × β) → List (String × β)
  | [] => [(k, v)]
  | (k', v') :: rest => if k' = k then (k, v) :: rest else (k', v') :: insertA k v rest

/-- dict deletion del d[k]: removes the entry for k, if any. -/
def eraseA {β : Type} (k : String) : List (String × β) → List (String × β)
  | [] => []
  | (k', v') :: rest => if k' = k then rest else (k', v') :: eraseA k rest

namespace DSP

/-! ### Packet structure (deep_space_protocol.py, DeepSpacePacket) -/

/-- PacketType enum. -/
inductive PacketType
  | DATA
  | ACK
  | NACK
  | HEARTBEAT
  | EMERGENCY
  | ROUTING_UPDATE
  | TIME_SYNC
deriving DecidableEq, Repr

/-- Numeric value of a PacketType (0x01 .. 0x07). -/
def PacketType.val : PacketType → Nat
  | .DATA => 1
  | .ACK => 2
  | .NACK => 3
  | .HEARTBEAT => 4
  | .EMERGENCY => 5
  | .ROUTING_UPDATE => 6
  | .TIME_SYNC => 7

/-- Priority enum. -/
inductive Priority
  | LOW
  | NORMAL
  | HIGH
  | CRITICAL
  | EMERGENCY
deriving DecidableEq, Repr

/-- Numeric value of a Priority (1 .. 5). -/
def Priority.val : Priority → Nat
  | .LOW => 1
  | .NORMAL => 2
  | .HIGH => 3
  | .CRITICAL => 4
  | .EMERGENCY => 5

/-- DeepSpacePacket. retry_count models the attribute dynamically added by
the ack-timeout handler (getattr(packet, "retry_count", 0) reads 0 before
the first timeout). -/
structure DeepSpacePacket where
  packet_id : String
  source_id : String
  destination_id : String
  packet_type : PacketType
  priority : Priority
  payload : List Nat
  sequence_number : Nat := 0
  timestamp : Nat
  ttl : Nat := 86400
  route_history : List String := []
  checksum : String := ""
  retry_count : Nat := 0
deriving DecidableEq, Repr

/-- DeepSpacePacket._calculate_checksum: the exact byte string hashed, i.e.
packet_id + source_id + destination_id + pack("B", type) + pack("B", priority)
+ payload + pack("I", sequence_number) + pack("d", timestamp). -/
def checksumData (p : DeepSpacePacket) : List Nat :=
  strBytes p.packet_id ++ strBytes p.source_id ++ strBytes p.destination_id ++
    [p.packet_type.val] ++ [p.priority.val] ++ p.payload ++
    packUInt32 p.sequence_number ++ packTimestamp p.timestamp

/-- DeepSpacePacket._calculate_checksum, with SHA-256 hexdigest abstracted as
the parameter hash. -/
def calculateChecksum (hash : List Nat → String) (p : DeepSpacePacket) : String :=
  hash (checksumData p)

/-- DeepSpacePacket.is_valid: the stored checksum equals the recomputed one. -/
def isValid (hash : List Nat → String) (p : DeepSpacePacket) : Bool :=
  p.checksum == calculateChecksum hash p

/-- The dataclass constructor with __post_init__: when no checksum is supplied
(checksum=None), it is computed from the other fields. -/
def mkPacket (hash : List Nat → String) (packet_id source_id destination_id : String)
    (packet_type : PacketType) (priority : Priority) (payload : List Nat)
    (sequence_number timestamp ttl : Nat) (route_history : List String)
    (checksum? : Option String) : DeepSpacePacket :=
  let base : DeepSpacePacket :=
    { packet_id, source_id, destination_id, packet_type, priority, payload,
      sequence_number, timestamp, ttl, route_history, checksum := "" }
  { base with checksum := checksum?.getD (calculateChecksum hash base) }

/-- DeepSpacePacket.serialize: header (struct "!32s32s32sBBIId"), route count
byte, route entries (32 bytes each, at most 10), checksum padded to 64 bytes,
then the payload. -/
def serialize (p : DeepSpacePacket) : List Nat :=
  let header :=
    padTrunc 32 (strBytes p.packet_id) ++ padTrunc 32 (strBytes p.source_id) ++
      padTrunc 32 (strBytes p.destination_id) ++ [p.packet_type.val] ++
      [p.priority.val] ++ packUInt32BE p.sequence_number ++
      packUInt32BE p.payload.length ++ packTimestampBE p.timestamp
  let route_data := ((p.route_history.take 10).map fun node =>
    padTrunc 32 (strBytes node)).flatten
  let route_header := [p.route_history.length % 256]
  let checksum_data := padTrunc 64 (strBytes p.checksum)
  header ++ route_header ++ route_data ++ checksum_data ++ p.payload

/-! ### Protocol state (deep_space_protocol.py, DeepSpaceProtocol.__init__) -/

/-- Mutable state of a DeepSpaceProtocol node. Statistics and configuration
fields mirror __init__; dicts are association lists in insertion order. -/
structure DeepSpaceProtocol where
  node_id : String
  max_retries : Nat := 5
  ack_timeout : Rat := 300
  sequence_counter : Nat := 0
  pending_acks : List (String × DeepSpacePacket) := []
  received_packets : List (String × DeepSpacePacket) := []
  duplicate_filter : List (String × Nat) := []
  routing_table : List (String × String) := []
  neighbor_nodes : List (String × Nat) := []
  link_qualities : List (String × Rat) := []
  packets_sent : Nat := 0
  packets_received : Nat := 0
  packets_dropped : Nat := 0
  bytes_transmitted : Nat := 0
  bytes_received : Nat := 0
  packet_cache_duration : Nat := 3600
  neighbor_timeout : Nat := 600
  max_packet_size : Nat := 65536
deriving DecidableEq, Repr

/-- Observable side effects of the asynchronous protocol code: timer tasks
started by asyncio.create_task, awaited sleeps, physical transmissions, the
retransmission calls of the ack-timeout handler and the delivery-failure log
record. -/
inductive ProtoEvent
  | ackTimerStarted (packet_id : String)
  | transmitted (neighbor : String) (packet_id : String)
  | timeoutSleep (d : Rat)
  | backoffSleep (d : Rat)
  | retransmitted (packet_id : String)
  | deliveryFailed (packet_id : String)
deriving DecidableEq, Repr

/-- DeepSpaceProtocol._transmit_to_neighbor: the simulated transmission always
succeeds (the random per-hop delay only affects timing and is omitted from
the trace); the link quality for node-neighbor is bumped by 0.01, capped at 1. -/
def transmitToNeighbor (st : DeepSpaceProtocol) (neighbor_id : String)
    (p : DeepSpacePacket) : DeepSpaceProtocol × Bool × List ProtoEvent :=
  let link_id := st.node_id ++ "-" ++ neighbor_id
  let current_quality := (lookupA link_id st.link_qualities).getD 1
  ({ st with link_qualities :=
      insertA link_id (min 1 (current_quality + 1 / 100)) st.link_qualities },
   true, [.transmitted neighbor_id p.packet_id])

/-- DeepSpaceProtocol._route_packet: direct neighbor first, then the routing
table; returns false when no route exists. -/
def routePacket (st : DeepSpaceProtocol) (p : DeepSpacePacket) :
    DeepSpaceProtocol × Bool × List ProtoEvent :=
  if (lookupA p.destination_id st.neighbor_nodes).isSome then
    transmitToNeighbor st p.destination_id p
  else
    match lookupA p.destination_id st.routing_table with
    | some next_hop => transmitToNeighbor st next_hop p
    | none => (st, false, [])

/-- DeepSpaceProtocol.send_packet. The packet id is the f-string
node_sequence_time; the DATA branch registers the packet in pending_acks and
starts the ack-timeout task before routing. -/
def sendPacket (hash : List Nat → String) (now : Nat) (st : DeepSpaceProtocol)
    (destination : String) (payload : List Nat) (packet_type : PacketType)
    (priority : Priority) : DeepSpaceProtocol × Bool × List ProtoEvent :=
  if payload.length > st.max_packet_size then (st, false, [])
  else
    let packet := mkPacket hash
      (st.node_id ++ "_" ++ toString st.sequence_counter ++ "_" ++ toString now)
      st.node_id destination packet_type priority payload
      st.sequence_counter now 86400 [] none
    let st := { st with sequence_counter := st.sequence_counter + 1 }
    let stEvs :=
      if packet_type = PacketType.DATA then
        ({ st with pending_acks := insertA packet.packet_id packet st.pending_acks },
         [ProtoEvent.ackTimerStarted packet.packet_id])
      else (st, [])
    let routed := routePacket stEvs.1 packet
    if routed.2.1 then
      ({ routed.1 with
          packets_sent := routed.1.packets_sent + 1
          bytes_transmitted := routed.1.bytes_transmitted + (serialize packet).length },
       true, stEvs.2 ++ routed.2.2)
    else (routed.1, false, stEvs.2 ++ routed.2.2)

/-- DeepSpaceProtocol._is_duplicate: purge entries older than the cache
duration, report a hit if the source_sequence key survives, otherwise record
it at the current time. -/
def isDuplicate (now : Nat) (st : DeepSpaceProtocol) (p : DeepSpacePacket) :
    DeepSpaceProtocol × Bool :=
  let packet_key := p.source_id ++ "_" ++ toString p.sequence_number
  let filtered := st.duplicate_filter.filter fun kv =>
    decide (now - kv.2 ≤ st.packet_cache_duration)
  if (lookupA packet_key filtered).isSome then
    ({ st with duplicate_filter := filtered }, true)
  else
    ({ st with duplicate_filter := insertA packet_key now filtered }, false)

/-- DeepSpaceProtocol._handle_ack: a payload of at least 64 bytes carries the
original packet id (null-stripped); the matching pending entry is removed. -/
def handleAck (st : DeepSpaceProtocol) (ack : DeepSpacePacket) : DeepSpaceProtocol :=
  if 64 ≤ ack.payload.length then
    let original := stripNulls (decodeBytes (ack.payload.take 64))
    if (lookupA original st.pending_acks).isSome then
      { st with pending_acks := eraseA original st.pending_acks }
    else st
  else st

/-- DeepSpaceProtocol._handle_nack: retransmit the referenced pending packet. -/
def handleNack (st : DeepSpaceProtocol) (nack : DeepSpacePacket) :
    DeepSpaceProtocol × List ProtoEvent :=
  if 64 ≤ nack.payload.length then
    let original := stripNulls (decodeBytes (nack.payload.take 64))
    match lookupA original st.pending_acks with
    | some orig =>
      let routed := routePacket st orig
      (routed.1, routed.2.2)
    | none => (st, [])
  else (st, [])

/-- DeepSpaceProtocol._handle_received_packet: for DATA, synthesize an ACK
(packet id null-padded to 64 bytes, ljust does not truncate) and send it back
to the source; then store the packet for the application layer. -/
def handleReceivedPacket (hash : List Nat → String) (now : Nat)
    (st : DeepSpaceProtocol) (p : DeepSpacePacket) :
    DeepSpaceProtocol × List ProtoEvent :=
  let stEvs :=
    if p.packet_type = PacketType.DATA then
      let b := strBytes p.packet_id
      let ack_payload := b ++ List.replicate (64 - b.length) 0
      let sent := sendPacket hash now st p.source_id ack_payload .ACK .HIGH
      (sent.1, sent.2.2)
    else (st, [])
  ({ stEvs.1 with received_packets := insertA p.packet_id p stEvs.1.received_packets },
   stEvs.2)

/-- Outcome of the forwarding branch of receive_packet. -/
inductive ForwardResult
  | droppedExpired
  | droppedLoop
  | routed (success : Bool)
deriving DecidableEq, Repr

/-- DeepSpaceProtocol._forward_packet: drop and count when the packet age
exceeds its TTL; drop and count when the local node id already occurs in the
route history; otherwise hand over to _route_packet. -/
def forwardPacket (now : Nat) (st : DeepSpaceProtocol) (p : DeepSpacePacket) :
    DeepSpaceProtocol × ForwardResult × List ProtoEvent :=
  if now - p.timestamp > p.ttl then
    ({ st with packets_dropped := st.packets_dropped + 1 }, .droppedExpired, [])
  else if st.node_id ∈ p.route_history then
    ({ st with packets_dropped := st.packets_dropped + 1 }, .droppedLoop, [])
  else
    let routed := routePacket st p
    (routed.1, .routed routed.2.1, routed.2.2)

/-- Which handler the dispatch section of receive_packet invoked. -/
inductive DispatchKind
  | ackHandled
  | nackHandled
  | heartbeatHandled
  | routingUpdateHandled
  | deliveredLocal
  | forwarded (r : ForwardResult)
deriving DecidableEq, Repr

/-- Which branch of receive_packet ended the call. -/
inductive ReceiveOutcome
  | invalidDropped
  | duplicateFiltered
  | dispatched (k : DispatchKind)
deriving DecidableEq, Repr

/-- DeepSpaceProtocol.receive_packet, starting from the successfully
deserialized packet (the byte-level _deserialize_packet is outside the claims
under study; raw_len is the length of the received byte string, counted into
bytes_received). Mirrors the source order: integrity check, duplicate check,
route-history append, dispatch by type, statistics update. -/
def receivePacket (hash : List Nat → String) (now : Nat) (st : DeepSpaceProtocol)
    (p : DeepSpacePacket) (raw_len : Nat) :
    DeepSpaceProtocol × Option DeepSpacePacket × ReceiveOutcome × List ProtoEvent :=
  if ¬ isValid hash p then
    ({ st with packets_dropped := st.packets_dropped + 1 }, none, .invalidDropped, [])
  else
    let dup := isDuplicate now st p
    if dup.2 then (dup.1, none, .duplicateFiltered, [])
    else
      let st := dup.1
      let p :=
        if st.node_id ∈ p.route_history then p
        else { p with route_history := p.route_history ++ [st.node_id] }
      let handled : DeepSpaceProtocol × DispatchKind × List ProtoEvent :=
        match p.packet_type with
        | .ACK => (handleAck st p, .ackHandled, [])
        | .NACK =>
          let r := handleNack st p
          (r.1, .nackHandled, r.2)
        | .HEARTBEAT =>
          ({ st with neighbor_nodes := insertA p.source_id now st.neighbor_nodes },
           .heartbeatHandled, [])
        | .ROUTING_UPDATE => (st, .routingUpdateHandled, [])
        | _ =>
          if p.destination_id = st.node_id then
            let r := handleReceivedPacket hash now st p
            (r.1, .deliveredLocal, r.2)
          else
            let r := forwardPacket now st p
            (r.1, .forwarded r.2.1, r.2.2)
      ({ handled.1 with
          packets_received := handled.1.packets_received + 1
          bytes_received := handled.1.bytes_received + raw_len },
       some p, .dispatched handled.2.1, handled.2.2)

/-- DeepSpaceProtocol._handle_ack_timeout, one firing of the timer: sleep for
ack_timeout, then, if the packet is still pending, either retransmit after an
exponential backoff of 2^retry_count seconds and restart the timer
(returning true), or, past max_retries, drop the pending entry and log the
delivery failure (returning false; no exception is raised). -/
def handleAckTimeout (st : DeepSpaceProtocol) (packet_id : String) :
    DeepSpaceProtocol × Bool × List ProtoEvent :=
  match lookupA packet_id st.pending_acks with
  | none => (st, false, [.timeoutSleep st.ack_timeout])
  | some packet =>
    let retry_count := packet.retry_count
    if retry_count < st.max_retries then
      let packet' := { packet with retry_count := retry_count + 1 }
      let st' := { st with pending_acks := insertA packet_id packet' st.pending_acks }
      let routed := routePacket st' packet'
      (routed.1, true,
       [.timeoutSleep st.ack_timeout, .backoffSleep ((2 : Rat) ^ retry_count),
        .retransmitted packet_id] ++ routed.2.2 ++ [.ackTimerStarted packet_id])
    else
      ({ st with pending_acks := eraseA packet_id st.pending_acks }, false,
       [.timeoutSleep st.ack_timeout, .deliveryFailed packet_id])

/-- The chain of ack-timeout firings for one packet when no ACK ever arrives:
each firing that reschedules the timer (asyncio.create_task of the handler on
itself) is followed by the next firing. fuel bounds the recursion; every run
below uses enough fuel for the chain to end by itself. -/
def ackTimeoutRun (fuel : Nat) (st : DeepSpaceProtocol) (packet_id : String) :
    DeepSpaceProtocol × List ProtoEvent :=
  match fuel with
  | 0 => (st, [])
  | fuel + 1 =>
    let fired := handleAckTimeout st packet_id
    if fired.2.1 then
      let rest := ackTimeoutRun fuel fired.1 packet_id
      (rest.1, fired.2.2 ++ rest.2)
    else (fired.1, fired.2.2)

/-- The behavior claimed for a DATA packet p pending under key pid whose ACK
never arrives: running the timer chain to completion deletes the pending
entry and produces, in order, for each n below max_retries a timeout sleep,
a backoff sleep of 2^n seconds, the n-th retransmission (transmitted to the
destination neighbor) and a timer restart, followed by one final timeout and
exactly one delivery-failure report -- no exception. -/
def AckRetrySpec (st : DeepSpaceProtocol) (pid : String) (p : DeepSpacePacket) : Prop :=
  lookupA pid (ackTimeoutRun (st.max_retries + 1) st pid).1.pending_acks = none ∧
  (ackTimeoutRun (st.max_retries + 1) st pid).2 =
    (List.range st.max_retries).flatMap (fun n =>
      [ProtoEvent.timeoutSleep st.ack_timeout,
       ProtoEvent.backoffSleep ((2 : Rat) ^ n),
       ProtoEvent.retransmitted pid,
       ProtoEvent.transmitted p.destination_id p.packet_id,
       ProtoEvent.ackTimerStarted pid]) ++
    [ProtoEvent.timeoutSleep st.ack_timeout, ProtoEvent.deliveryFailed pid] ∧
  ((ackTimeoutRun (st.max_retries + 1) st pid).2.countP fun e =>
    match e with | ProtoEvent.retransmitted _ => true | _ => false) =
    st.max_retries ∧
  ((ackTimeoutRun (st.max_retries + 1) st pid).2.countP fun e =>
    match e with | ProtoEvent.deliveryFailed _ => true | _ => false) = 1

end DSP

namespace Radio

/-! ### Adaptive multiband radio (multiband_radio.py) -/

/-- FrequencyBand enum. -/
inductive FrequencyBand
  | MICROWAVE
  | MILLIMETER_WAVE
  | TERAHERTZ
  | OPTICAL
deriving DecidableEq, Repr

/-- The Python enum member name (band.name), used in link ids. -/
def FrequencyBand.memberName : FrequencyBand → String
  | .MICROWAVE => "MICROWAVE"
  | .MILLIMETER_WAVE => "MILLIMETER_WAVE"
  | .TERAHERTZ => "TERAHERTZ"
  | .OPTICAL => "OPTICAL"

/-- Lower end of the band's frequency range, in Hz. -/
def FrequencyBand.freqLow : FrequencyBand → Rat
  | .MICROWAVE => 300000000
  | .MILLIMETER_WAVE => 30000000000
  | .TERAHERTZ => 300000000000
  | .OPTICAL => 100000000000000

/-- Upper end of the band's frequency range, in Hz. -/
def FrequencyBand.freqHigh : FrequencyBand → Rat
  | .MICROWAVE => 30000000000
  | .MILLIMETER_WAVE => 300000000000
  | .TERAHERTZ => 3000000000000
  | .OPTICAL => 1000000000000000

/-- ModulationType enum. -/
inductive ModulationType
  | BPSK
  | QPSK
  | QAM16
  | QAM64
  | OFDM
  | ADAPTIVE
deriving DecidableEq, Repr

/-- Weather categories used by channel assessment ("clear", "cloudy",
"rain", "storm"). -/
inductive Weather
  | clear
  | cloudy
  | rain
  | storm
deriving DecidableEq, Repr

/-- ChannelConditions dataclass (the timestamp field is omitted: it is a
wall-clock datetime never read by the code under study). -/
structure ChannelConditions where
  signal_to_noise_ratio : Rat
  bit_error_rate : Rat
  atmospheric_loss : Rat
  multipath_fading : Rat
  doppler_shift : Rat
  interference_level : Rat
  weather_impact : Weather
  link_quality_score : Rat
deriving DecidableEq, Repr

/-- CommunicationLink dataclass of the radio (established_at, a wall-clock
datetime never read by the logic under study, is omitted). -/
structure CommunicationLink where
  link_id : String
  source_node : String
  destination_node : String
  frequency_band : FrequencyBand
  modulation : ModulationType
  data_rate : Rat
  power_level : Rat
  antenna_gain : Rat
  is_active : Bool := true
  channel_conditions : Option ChannelConditions := none
  quality_history : List Rat := []
deriving DecidableEq, Repr

/-- The qos_requirements dict: the keys the radio code reads, each possibly
absent (dict.get with a default). -/
structure QoS where
  max_ber : Option Rat := none
  bandwidth_mbps : Option Rat := none
  latency_ms : Option Rat := none
  distance_km : Option Rat := none
deriving DecidableEq, Repr

/-- TransmissionRequest dataclass (deadline, a wall-clock datetime never read
by band selection, is omitted). -/
structure TransmissionRequest where
  request_id : String
  source : String
  destination : String
  data_size : Nat
  qos_requirements : QoS
  priority : Nat
  preferred_bands : List FrequencyBand := []
deriving DecidableEq, Repr

/-- The per-band spectrum measurement dict handed to _calculate_band_score;
each key may be absent (spectrum_info.get with a default). -/
structure SpectrumInfo where
  occupancy : Option Rat := none
  interference : Option Rat := none
  signal_quality : Option Rat := none
  available_bandwidth : Option Rat := none
deriving DecidableEq, Repr

/-- MultibandRadio state: the fields read by the operations under study. -/
structure MultibandRadio where
  radio_id : String
  supported_bands : List FrequencyBand
  active_links : List (String × CommunicationLink) := []
  min_snr_threshold : Rat := 10
  max_acceptable_ber : Rat := 1 / 1000000
  link_quality_threshold : Rat := 7 / 10
deriving DecidableEq, Repr

/-- max(0.0, min(1.0, x)): the clamp closing _calculate_band_score. -/
def clamp01 (x : Rat) : Rat := max 0 (min 1 x)

/-- MultibandRadio._calculate_band_score: multiplies spectrum availability,
interference, channel quality, weather penalties for high-frequency bands,
a bandwidth bonus/penalty and an optical low-latency bonus, then clamps the
result to [0, 1]. -/
def calculateBandScore (band : FrequencyBand) (req : TransmissionRequest)
    (spectrum_info : SpectrumInfo) (cc : Option ChannelConditions) : Rat :=
  let score : Rat := 1
  let occupancy := spectrum_info.occupancy.getD (1 / 2)
  let score := score * (1 - occupancy)
  let interference := spectrum_info.interference.getD 0
  let score := score * (1 - interference)
  let score :=
    match cc with
    | none => score
    | some c =>
      let score := score * c.link_quality_score
      if c.weather_impact = Weather.rain ∨ c.weather_impact = Weather.storm then
        if band = FrequencyBand.MILLIMETER_WAVE ∨ band = FrequencyBand.TERAHERTZ then
          score * (3 / 10)
        else if band = FrequencyBand.OPTICAL then score * (1 / 10)
        else score
      else score
  let required_bandwidth := req.qos_requirements.bandwidth_mbps.getD 10
  let available_bandwidth := spectrum_info.available_bandwidth.getD 50
  let score :=
    if available_bandwidth ≥ required_bandwidth then score * (6 / 5)
    else score * (1 / 2)
  let required_latency := req.qos_requirements.latency_ms.getD 100
  let score :=
    if band = FrequencyBand.OPTICAL ∧ required_latency < 10 then score * (3 / 2)
    else score
  clamp01 score

/-- The channel-conditions factor of the band score (quality score times the
weather penalty), read off from the branches of _calculate_band_score. -/
def condFactor (band : FrequencyBand) (cc : Option ChannelConditions) : Rat :=
  match cc with
  | none => 1
  | some c =>
    c.link_quality_score *
      (if c.weather_impact = Weather.rain ∨ c.weather_impact = Weather.storm then
        (if band = FrequencyBand.MILLIMETER_WAVE ∨ band = FrequencyBand.TERAHERTZ then
          3 / 10
         else if band = FrequencyBand.OPTICAL then 1 / 10
         else 1)
       else 1)

/-- The bandwidth bonus/penalty factor of the band score. -/
def bwFactor (req : TransmissionRequest) (si : SpectrumInfo) : Rat :=
  if si.available_bandwidth.getD 50 ≥ req.qos_requirements.bandwidth_mbps.getD 10 then
    6 / 5
  else 1 / 2

/-- The optical low-latency bonus factor of the band score. -/
def latFactor (band : FrequencyBand) (req : TransmissionRequest) : Rat :=
  if band = FrequencyBand.OPTICAL ∧ req.qos_requirements.latency_ms.getD 100 < 10 then
    3 / 2
  else 1

/-- MultibandRadio._select_modulation. -/
def selectModulation (band : FrequencyBand) (qos : QoS) : ModulationType :=
  let required_ber := qos.max_ber.getD (1 / 1000000)
  let required_throughput := qos.bandwidth_mbps.getD 10 * 1000000
  if band = FrequencyBand.MILLIMETER_WAVE ∨ band = FrequencyBand.TERAHERTZ ∨
      band = FrequencyBand.OPTICAL then
    if required_ber < 1 / 1000000000 then ModulationType.QPSK
    else if required_throughput > 100000000 then ModulationType.QAM64
    else ModulationType.QAM16
  else
    if required_ber < 1 / 1000000000 then ModulationType.BPSK
    else ModulationType.QPSK

/-- MultibandRadio._get_antenna_gain (dBi). -/
def getAntennaGain : FrequencyBand → Rat
  | .MICROWAVE => 20
  | .MILLIMETER_WAVE => 30
  | .TERAHERTZ => 40
  | .OPTICAL => 50

/-- MultibandRadio._get_band_bandwidth (Hz). -/
def getBandBandwidth : FrequencyBand → Rat
  | .MICROWAVE => 100000000
  | .MILLIMETER_WAVE => 1000000000
  | .TERAHERTZ => 10000000000
  | .OPTICAL => 100000000000

/-- MultibandRadio._get_spectral_efficiency (bits/Hz); the dict lookup
defaults to 2.0 for ADAPTIVE, which has no entry. -/
def getSpectralEfficiency : ModulationType → Rat
  | .BPSK => 1
  | .QPSK => 2
  | .QAM16 => 4
  | .QAM64 => 6
  | .OFDM => 3
  | .ADAPTIVE => 2

/-- Required SNR per modulation in _calculate_link_budget; the dict lookup
defaults to 15.0 for ADAPTIVE, which has no entry. -/
def requiredSnr : ModulationType → Rat
  | .BPSK => 10
  | .QPSK => 13
  | .QAM16 => 18
  | .QAM64 => 24
  | .OFDM => 15
  | .ADAPTIVE => 15

/-- MultibandRadio._calculate_link_budget. The real-valued base-10 logarithm
of numpy is abstracted as the parameter log10 (the claims under study never
depend on its values). Returns (power_level, data_rate). -/
def calculateLinkBudget (log10 : Rat → Rat) (band : FrequencyBand)
    (modulation : ModulationType) (qos : QoS) : Rat × Rat :=
  let frequency := (band.freqLow + band.freqHigh) / 2
  let distance_km := qos.distance_km.getD 1000
  let path_loss_db :=
    20 * log10 (distance_km * 1000) + 20 * log10 frequency - 14755 / 100
  let required_snr := requiredSnr modulation
  let power_level := required_snr + path_loss_db - getAntennaGain band
  let data_rate := getBandBandwidth band * getSpectralEfficiency modulation
  (power_level, data_rate)

/-- The random.uniform / random.choice draws consumed by one channel
assessment, made explicit. The sampled ranges are snr in [10, 30], ber in
[1e-9, 1e-3] and atmospheric_loss in [0.1, 5] before weather adjustment. -/
structure Draws where
  snr : Rat
  ber : Rat
  atmospheric_loss : Rat
  weather : Weather
  multipath_fading : Rat
  doppler_shift : Rat
  interference_level : Rat
deriving DecidableEq, Repr

/-- MultibandRadio._assess_channel_conditions as a function of the band and
the random draws: weather multiplies SNR and atmospheric loss for the
high-frequency bands, and the link quality score is the mean of an SNR
factor, a BER factor and a loss factor, each capped at 1. -/
def assessChannelConditions (band : FrequencyBand) (d : Draws) : ChannelConditions :=
  let snr := d.snr
  let atmospheric_loss := d.atmospheric_loss
  let adjusted :=
    if band = FrequencyBand.MILLIMETER_WAVE ∨ band = FrequencyBand.TERAHERTZ then
      if d.weather = Weather.rain ∨ d.weather = Weather.storm then
        (snr * (1 / 2), atmospheric_loss * 3)
      else (snr, atmospheric_loss)
    else if band = FrequencyBand.OPTICAL then
      if d.weather = Weather.cloudy ∨ d.weather = Weather.rain ∨
          d.weather = Weather.storm then
        (snr * (1 / 10), atmospheric_loss * 10)
      else (snr, atmospheric_loss)
    else (snr, atmospheric_loss)
  let snr := adjusted.1
  let atmospheric_loss := adjusted.2
  let quality_factors :=
    [min 1 (snr / 20), min 1 ((1 / 1000000) / d.ber), min 1 (10 / atmospheric_loss)]
  let link_quality := quality_factors.sum / 3
  { signal_to_noise_ratio := snr
    bit_error_rate := d.ber
    atmospheric_loss := atmospheric_loss
    multipath_fading := d.multipath_fading
    doppler_shift := d.doppler_shift
    interference_level := d.interference_level
    weather_impact := d.weather
    link_quality_score := link_quality }

/-- MultibandRadio.establish_link: an existing link with the same id is
returned unchanged; otherwise modulation and link budget are computed, an
initial channel assessment (driven by the draws d) is stored on the link,
and the link is activated only when its quality score exceeds the 0.7
threshold (returning null otherwise). -/
def establishLink (log10 : Rat → Rat) (radio : MultibandRadio)
    (source destination : String) (band : FrequencyBand) (qos : QoS)
    (d : Draws) : MultibandRadio × Option CommunicationLink :=
  let link_id := source ++ "-" ++ destination ++ "-" ++ band.memberName
  match lookupA link_id radio.active_links with
  | some link => (radio, some link)
  | none =>
    let modulation := selectModulation band qos
    let budget := calculateLinkBudget log10 band modulation qos
    let cc := assessChannelConditions band d
    let link : CommunicationLink :=
      { link_id := link_id
        source_node := source
        destination_node := destination
        frequency_band := band
        modulation := modulation
        data_rate := budget.2
        power_level := budget.1
        antenna_gain := getAntennaGain band
        is_active := true
        channel_conditions := some cc
        quality_history := [] }
    if cc.link_quality_score > radio.link_quality_threshold then
      ({ radio with active_links := insertA link_id link radio.active_links },
       some link)
    else (radio, none)

end Radio

namespace SN

/-! ### Topology and routing manager (space_network.py) -/

/-- CommunicationLink of the topology manager: the fields read by
find_optimal_route and _update_routing_table (the remaining dataclass fields
-- signal strength, bandwidth, packet loss, encryption flag and the
wall-clock establishment time -- are never read by route computation). -/
structure CommunicationLink where
  link_id : String
  source_node : String
  target_node : String
  latency : Rat
  quality_score : Rat
deriving DecidableEq, Repr

/-- The routing weight of a link: latency * (2 - quality_score). -/
def linkWeight (l : CommunicationLink) : Rat :=
  l.latency * (2 - l.quality_score)

/-- SpaceNetwork state as read by find_optimal_route: the registered node ids
(keys of self.nodes, in insertion order) and the links (values of
self.links). -/
structure SpaceNetwork where
  nodes : List String
  links : List CommunicationLink
deriving DecidableEq, Repr

/-- min(unvisited, key=lambda x: distances[x]): the first element of the
unvisited collection attaining the minimal distance (Python's min keeps the
earliest minimal element in iteration order). -/
def argminD (dist : String → WithTop Rat) : List String → Option String
  | [] => none
  | v :: rest =>
    match argminD dist rest with
    | none => some v
    | some u => if dist v ≤ dist u then some v else some u

/-- One pass of the inner relaxation: for a link leaving current toward a
still-unvisited node, replace the recorded distance when the alternative
through current is strictly smaller, recording current as predecessor. -/
def relaxOne (current : String) (unvisited : List String)
    (dp : (String → WithTop Rat) × (String → Option String))
    (l : CommunicationLink) : (String → WithTop Rat) × (String → Option String) :=
  if l.source_node = current ∧ l.target_node ∈ unvisited then
    let alt := dp.1 current + (linkWeight l : WithTop Rat)
    if alt < dp.1 l.target_node then
      (fun v => if v = l.target_node then alt else dp.1 v,
       fun v => if v = l.target_node then some current else dp.2 v)
    else dp
  else dp

/-- The inner for-loop of find_optimal_route over all links. -/
def relaxAll (links : List CommunicationLink) (current : String)
    (unvisited : List String) (dist : String → WithTop Rat)
    (prev : String → Option String) :
    (String → WithTop Rat) × (String → Option String) :=
  links.foldl (relaxOne current unvisited) (dist, prev)

/-- The while-loop of find_optimal_route: pick the unvisited node of minimal
distance, stop on an infinite minimum or on reaching the target, otherwise
remove it from unvisited and relax its outgoing links. fuel bounds the
recursion; one unit is consumed per settled node, so nodes.length + 1 units
always suffice (the loop never runs longer before hitting a stop condition). -/
def dijkstraLoop (links : List CommunicationLink) (target : String) :
    Nat → List String → (String → WithTop Rat) → (String → Option String) →
    (String → WithTop Rat) × (String → Option String)
  | 0, _, dist, prev => (dist, prev)
  | fuel + 1, unvisited, dist, prev =>
    match argminD dist unvisited with
    | none => (dist, prev)
    | some current =>
      if dist current = ⊤ then (dist, prev)
      else if current = target then (dist, prev)
      else
        let unvisited' := unvisited.erase current
        let dp := relaxAll links current unvisited' dist prev
        dijkstraLoop links target fuel unvisited' dp.1 dp.2

/-- The path-reconstruction loop: follow predecessor pointers from current
until a node with no predecessor, collecting nodes front to back. fuel bounds
the walk; the correctness proofs show the chain always ends within the fuel
supplied by find_optimal_route. -/
def walkPrev (prev : String → Option String) : Nat → String → List String
  | 0, current => [current]
  | fuel + 1, current =>
    match prev current with
    | none => [current]
    | some p => current :: walkPrev prev fuel p

/-- SpaceNetwork.find_optimal_route: missing endpoints give [], a trivial
query gives [source], otherwise Dijkstra runs from source and the recorded
predecessor chain from target is reversed into the returned route (an unset
predecessor for the target means no path and gives []). -/
def findOptimalRoute (net : SpaceNetwork) (source target : String) : List String :=
  if source ∉ net.nodes ∨ target ∉ net.nodes then []
  else if source = target then [source]
  else
    let dist0 : String → WithTop Rat := fun v => if v = source then 0 else ⊤
    let dp := dijkstraLoop net.links target (net.nodes.length + 1) net.nodes
      dist0 (fun _ => none)
    if (dp.2 target).isNone ∧ source ≠ target then []
    else (walkPrev dp.2 (net.nodes.length + 1) target).reverse

/-- A directed path of the given total weight from source to a node, built
link by link from the source end outward. -/
inductive IsPath (links : List CommunicationLink) (source : String) :
    String → Rat → Prop
  | nil : IsPath links source source 0
  | snoc {z : String} {w : Rat} (hp : IsPath links source z w)
      (l : CommunicationLink) (hl : l ∈ links) (hs : l.source_node = z) :
      IsPath links source l.target_node (w + linkWeight l)

/-- A node list is a chain in the link set with the given total weight:
consecutive nodes are joined by a listed link and the weights add up. -/
inductive NodeChain (links : List CommunicationLink) : List String → Rat → Prop
  | single (a : String) : NodeChain links [a] 0
  | cons {b : String} {rest : List String} {w : Rat} (l : CommunicationLink)
      (hl : l ∈ links) (hs : l.target_node = b)
      (h : NodeChain links (b :: rest) w) :
      NodeChain links (l.source_node :: b :: rest) (linkWeight l + w)

/-- The maximal predecessor chain from a node: the list the reconstruction
loop of find_optimal_route walks, ending at a node without predecessor. -/
inductive PrevChain (prev : String → Option String) : String → List String → Prop
  | nil {v : String} : prev v = none → PrevChain prev v [v]
  | cons {v u : String} {c : List String} : prev v = some u →
      PrevChain prev u c → PrevChain prev v (v :: c)

/-- Characterization of the relaxation fold relative to the distance and
predecessor maps at loop-head: the distance of the current node is untouched,
and every node either keeps both its maps or has been relaxed through a link
leaving current, strictly lowering its distance. -/
def RelaxedFrom (links : List CommunicationLink) (current : String)
    (unvisited : List String) (dist : String → WithTop Rat)
    (prev : String → Option String)
    (dp : (String → WithTop Rat) × (String → Option String)) : Prop :=
  dp.1 current = dist current ∧
  ∀ v, (dp.1 v = dist v ∧ dp.2 v = prev v) ∨
    (v ∈ unvisited ∧ dp.2 v = some current ∧ dp.1 v < dist v ∧
      ∃ l, l ∈ links ∧ l.source_node = current ∧ l.target_node = v ∧
        dp.1 v = dist current + (linkWeight l : WithTop Rat))

/-- The loop invariant of the Dijkstra run inside find_optimal_route.
O is the list of settled nodes (in settling order), unvisited the remaining
pool. Settled distances are optimal over all paths; unvisited distances are
realizable and dominate every settled-plus-one-link bound (frontier); the
predecessor map encodes, for every finite-distance node, a link from a
settled node realizing its distance, with complete chains recorded for the
settled region. -/
structure DijkstraInv (links : List CommunicationLink) (nodes : List String)
    (source : String) (O unvisited : List String)
    (dist : String → WithTop Rat) (prev : String → Option String) : Prop where
  nodup : unvisited.Nodup
  sub : ∀ v, v ∈ unvisited → v ∈ nodes
  dist_source : dist source = 0
  prev_source : prev source = none
  realizable : ∀ v, dist v ≠ ⊤ →
    ∃ w : Rat, dist v = (w : WithTop Rat) ∧ IsPath links source v w
  settled_opt : ∀ v, v ∈ O → ∀ w : Rat, IsPath links source v w →
    dist v ≤ (w : WithTop Rat)
  frontier : ∀ x, x ∈ O → ∀ l, l ∈ links → l.source_node = x →
    l.target_node ∈ unvisited →
    dist l.target_node ≤ dist x + (linkWeight l : WithTop Rat)
  prev_spec : ∀ v u, prev v = some u → u ∈ O ∧ v ≠ source ∧ dist v ≠ ⊤ ∧
    ∃ l, l ∈ links ∧ l.source_node = u ∧ l.target_node = v ∧
      dist v = dist u + (linkWeight l : WithTop Rat)
  prev_total : ∀ v, v ≠ source → dist v ≠ ⊤ → ∃ u, prev v = some u
  onodup : O.Nodup
  omem : ∀ v, v ∈ O ↔ (v ∈ nodes ∧ v ∉ unvisited)
  chain : ∀ v, v ∈ O → ∃ (c : List String) (w : Rat),
    PrevChain prev v c ∧ c.length ≤ O.length ∧ c.getLast? = some source ∧
    NodeChain links c.reverse w ∧ dist v = (w : WithTop Rat) ∧ ∀ x, x ∈ c → x ∈ O

/-- The full correctness statement for find_optimal_route on one input:
a trivial query returns [source]; an unreachable target returns []; and a
reachable target returns a chain of nodes from source to target realized in
the link set whose total weight is a lower bound of the weight of every
directed path from source to target. -/
def RouteCorrect (net : SpaceNetwork) (source target : String) : Prop :=
  (source = target → findOptimalRoute net source target = [source]) ∧
  (source ≠ target → (¬ ∃ w, IsPath net.links source target w) →
    findOptimalRoute net source target = []) ∧
  (source ≠ target → ∀ w, IsPath net.links source target w →
    ∃ w₀, NodeChain net.links (findOptimalRoute net source target) w₀ ∧
      (findOptimalRoute net source target).head? = some source ∧
      (findOptimalRoute net source target).getLast? = some target ∧
      IsPath net.links source target w₀ ∧
      (∀ w', IsPath net.links source target w' → w₀ ≤ w'))

end SN

namespace Examples

/-! ### Concrete instances used to exercise the theorems on closed inputs -/

/-- A concrete stand-in for the abstract hash parameter. -/
def wHash : List Nat → String := fun _ => "h"

/-- A concrete stand-in for the abstract base-10 logarithm parameter. -/
def log0 : Rat → Rat := fun _ => 0

/-- A freshly initialized protocol node with no neighbors and no routes. -/
def stA : DSP.DeepSpaceProtocol := { node_id := "n" }

/-- A protocol node with one direct neighbor d. -/
def stB : DSP.DeepSpaceProtocol := { node_id := "n", neighbor_nodes := [("d", 50)] }

/-- A valid (under wHash) DATA packet from s to d, fresh at time 200. -/
def pFwd : DSP.DeepSpacePacket :=
  { packet_id := "p1", source_id := "s", destination_id := "d",
    packet_type := .DATA, priority := .NORMAL, payload := [1, 2, 3],
    sequence_number := 0, timestamp := 100, checksum := "h" }

/-- A DATA packet of this node awaiting an ACK, zero retries so far. -/
def pQ : DSP.DeepSpacePacket :=
  { packet_id := "q", source_id := "n", destination_id := "d",
    packet_type := .DATA, priority := .NORMAL, payload := [],
    sequence_number := 0, timestamp := 0, checksum := "c" }

/-- A protocol node with the packet pQ pending under its id and the
destination d as a direct neighbor; two retries are configured. -/
def stC : DSP.DeepSpaceProtocol :=
  { node_id := "n", max_retries := 2, pending_acks := [("q", pQ)],
    neighbor_nodes := [("d", 50)] }

/-- A payload one byte over the 64 KiB limit. -/
def bigPayload : List Nat := List.replicate 65537 0

/-- An ACK packet whose 64-byte payload references the pending packet q. -/
def ackP : DSP.DeepSpacePacket :=
  { packet_id := "a1", source_id := "d", destination_id := "n",
    packet_type := .ACK, priority := .HIGH,
    payload := strBytes "q" ++ List.replicate 63 0,
    sequence_number := 0, timestamp := 0, checksum := "h" }

/-- A three-node network in which a-b-c (total weight 2) beats the direct
link a-c (weight 5). -/
def net0 : SN.SpaceNetwork :=
  { nodes := ["a", "b", "c"],
    links := [⟨"l1", "a", "b", 1, 1⟩, ⟨"l2", "b", "c", 1, 1⟩,
              ⟨"l3", "a", "c", 5, 1⟩] }

/-- A radio supporting the microwave band with no active links. -/
def radio0 : Radio.MultibandRadio := { radio_id := "r", supported_bands := [.MICROWAVE] }

/-- Empty QoS requirements (every dict.get falls back to its default). -/
def qos0 : Radio.QoS := {}

/-- A transmission request with empty QoS map. -/
def req0 : Radio.TransmissionRequest :=
  { request_id := "t1", source := "a", destination := "b", data_size := 10,
    qos_requirements := qos0, priority := 1 }

/-- Channel draws within the sampled ranges maximizing quality under storm on
OPTICAL: snr 30, ber 1e-9, loss 0.1. -/
def d9 : Radio.Draws := ⟨30, 1 / 1000000000, 1 / 10, .storm, 0, 0, 0⟩

/-- Channel draws whose assessed quality on MICROWAVE in clear weather is 1. -/
def dGood : Radio.Draws := ⟨20, 1 / 1000000000, 1, .clear, 0, 0, 0⟩

/-- Spectrum measurement with explicit occupancy and interference. -/
def si0 (occ intf : Rat) : Radio.SpectrumInfo :=
  { occupancy := some occ, interference := some intf,
    signal_quality := some 1, available_bandwidth := some 50 }

end Examples

/-! ## Theorems -/

/-! ### Association-list lemmas -/

theorem lookupA_insertA_self {β : Type} (k : String) (v : β) (l : List (String × β)) :
    lookupA k (insertA k v l) = some v := by
  induction l with
  | nil => simp [insertA, lookupA]
  | cons hd tl ih =>
    by_cases h : hd.1 = k
    · simp [insertA, lookupA, h]
    · simp [insertA, lookupA, h, ih]

theorem lookupA_insertA_ne {β : Type} (k k' : String) (v : β) (l : List (String × β))
    (h : k ≠ k') : lookupA k' (insertA k v l) = lookupA k' l := by
  induction l with
  | nil => simp [insertA, lookupA, h]
  | cons hd tl ih =>
    by_cases h1 : hd.1 = k
    · simp [insertA, lookupA, h1, h]
    · by_cases h2 : hd.1 = k'
      · simp [insertA, lookupA, h1, h2, Ne.symm h]
      · simp [insertA, lookupA, h1, h2, ih]

theorem lookupA_eq_none_of_not_mem {β : Type} (k : String) (l : List (String × β))
    (h : k ∉ l.map Prod.fst) : lookupA k l = none := by
  induction l with
  | nil => rfl
  | cons hd tl ih =>
    simp only [List.map_cons, List.mem_cons, not_or] at h
    have hne : hd.1 ≠ k := fun he => h.1 he.symm
    simp only [lookupA, hne, if_false]
    exact ih h.2

theorem lookupA_eraseA_of_nodup {β : Type} (k : String) (l : List (String × β))
    (h : (l.map Prod.fst).Nodup) : lookupA k (eraseA k l) = none := by
  induction l with
  | nil => rfl
  | cons hd tl ih =>
    simp only [List.map_cons, List.nodup_cons] at h
    by_cases h1 : hd.1 = k
    · subst h1
      simp only [eraseA, if_pos rfl]
      exact lookupA_eq_none_of_not_mem _ _ h.1
    · simp only [eraseA, h1, if_false, lookupA]
      simp [h1, ih h.2]

theorem lookupA_append {β : Type} (k : String) (l₁ l₂ : List (String × β))
    (h : lookupA k l₁ = none) : lookupA k (l₁ ++ l₂) = lookupA k l₂ := by
  induction l₁ with
  | nil => simp
  | cons hd tl ih =>
    simp only [lookupA] at h
    by_cases h1 : hd.1 = k
    · simp [h1] at h
    · simpa [lookupA, h1] using ih (by simpa [h1] using h)

theorem lookupA_filter_none {β : Type} (k : String) (q : String × β → Bool)
    (l : List (String × β)) (h : lookupA k l = none) :
    lookupA k (l.filter q) = none := by
  induction l with
  | nil => simp [lookupA]
  | cons hd tl ih =>
    simp only [lookupA] at h
    by_cases h1 : hd.1 = k
    · simp [h1] at h
    · have := ih (by simpa [h1] using h)
      by_cases hq : q hd
      · simpa [List.filter, hq, lookupA, h1] using this
      · simpa [List.filter, hq] using this

theorem insertA_of_lookup_none {β : Type} (k : String) (v : β) (l : List (String × β))
    (h : lookupA k l = none) : insertA k v l = l ++ [(k, v)] := by
  induction l with
  | nil => simp [insertA]
  | cons hd tl ih =>
    simp only [lookupA] at h
    by_cases h1 : hd.1 = k
    · simp [h1] at h
    · simp only [insertA, h1, if_false, List.cons_append, List.cons.injEq, true_and]
      exact ih (by simpa [h1] using h)

theorem insertA_keys_of_lookup_some {β : Type} (k : String) (v w : β)
    (l : List (String × β)) (h : lookupA k l = some w) :
    (insertA k v l).map Prod.fst = l.map Prod.fst := by
  induction l with
  | nil => simp [lookupA] at h
  | cons hd tl ih =>
    simp only [lookupA] at h
    by_cases h1 : hd.1 = k
    · simp [insertA, h1]
    · simp only [h1, if_false] at h
      simp [insertA, h1, ih h]

/-! ### C1: checksum field coverage and route-history immunity -/

/-- C1: the stored checksum of a freshly constructed packet is the digest of
exactly the concatenation of packet_id, source_id, destination_id, type byte,
priority byte, payload, sequence number and timestamp and of nothing else:
the digest is invariant under arbitrary changes of the remaining fields
(route_history, ttl, checksum, retry_count); consequently appending any node
id to the route history leaves is_valid unchanged (in particular true when it
was true), and validation recomputes the digest of the same field set. -/
theorem checksum_covers_exactly_header_fields :
    (∀ (hash : List Nat → String) (p : DSP.DeepSpacePacket) (r : List String)
        (t k : Nat) (c : String),
      DSP.calculateChecksum hash
          { p with route_history := r, ttl := t, retry_count := k, checksum := c } =
        DSP.calculateChecksum hash p) ∧
    (∀ (hash : List Nat → String) (pid src dst : String) (ty : DSP.PacketType)
        (pr : DSP.Priority) (payload : List Nat) (seq ts ttl : Nat)
        (rh : List String),
      (DSP.mkPacket hash pid src dst ty pr payload seq ts ttl rh none).checksum =
        DSP.calculateChecksum hash
          (DSP.mkPacket hash pid src dst ty pr payload seq ts ttl rh none)) ∧
    (∀ (hash : List Nat → String) (p : DSP.DeepSpacePacket) (n : String),
      DSP.isValid hash { p with route_history := p.route_history ++ [n] } =
        DSP.isValid hash p) ∧
    (∀ (hash : List Nat → String) (p : DSP.DeepSpacePacket),
      DSP.isValid hash p = (p.checksum == DSP.calculateChecksum hash p)) := by
  refine ⟨fun _ _ _ _ _ _ => rfl, fun _ _ _ _ _ _ _ _ _ _ _ => rfl,
    fun _ _ _ => rfl, fun _ _ => rfl⟩

/-! ### C4: oversized payloads are rejected with no side effect -/

/-- C4: a payload strictly longer than max_packet_size makes send_packet
return false with the state unchanged and no events: no sequence number is
consumed, no pending-ACK entry or timer is created, and the statistics are
untouched. -/
theorem send_packet_oversized_rejected_without_side_effect :
    ∀ (hash : List Nat → String) (now : Nat) (st : DSP.DeepSpaceProtocol)
      (destination : String) (payload : List Nat) (pt : DSP.PacketType)
      (pr : DSP.Priority),
      payload.length > st.max_packet_size →
      DSP.sendPacket hash now st destination payload pt pr = (st, false, []) := by
  intro hash now st destination payload pt pr h
  simp [DSP.sendPacket, h]

/-- Witness: sending a payload of max_packet_size + 1 = 65537 bytes from a
fresh node returns false and leaves the state untouched. -/
theorem send_packet_oversized_rejected_without_side_effect_witness :
    Examples.bigPayload.length > Examples.stA.max_packet_size ∧
      DSP.sendPacket Examples.wHash 0 Examples.stA "d" Examples.bigPayload
        .DATA .NORMAL = (Examples.stA, false, []) := by
  have h : Examples.bigPayload.length > Examples.stA.max_packet_size := by
    have hl : Examples.bigPayload.length = 65537 := by
      rw [Examples.bigPayload, List.length_replicate]
    rw [hl]
    norm_num [Examples.stA]
  exact ⟨h, send_packet_oversized_rejected_without_side_effect
    Examples.wHash 0 Examples.stA "d" Examples.bigPayload .DATA .NORMAL h⟩

/-! ### C10: a routing failure in send_packet is not side-effect free -/

theorem routePacket_no_route (st : DSP.DeepSpaceProtocol) (p : DSP.DeepSpacePacket)
    (hn : lookupA p.destination_id st.neighbor_nodes = none)
    (hr : lookupA p.destination_id st.routing_table = none) :
    DSP.routePacket st p = (st, false, []) := by
  simp [DSP.routePacket, hn, hr]

/-- C10: when the payload fits but no route to the destination exists (no
neighbor entry and no routing-table entry), send_packet returns false, yet
the sequence counter has already been incremented and, for a DATA packet,
the packet sits in the pending-ACK table with its ack-timeout timer started;
the sent/transmitted statistics stay unchanged. -/
theorem send_packet_routing_failure_leaves_side_effects :
    ∀ (hash : List Nat → String) (now : Nat) (st : DSP.DeepSpaceProtocol)
      (destination : String) (payload : List Nat) (pt : DSP.PacketType)
      (pr : DSP.Priority),
      payload.length ≤ st.max_packet_size →
      lookupA destination st.neighbor_nodes = none →
      lookupA destination st.routing_table = none →
      (DSP.sendPacket hash now st destination payload pt pr).2.1 = false ∧
      (DSP.sendPacket hash now st destination payload pt pr).1.sequence_counter =
        st.sequence_counter + 1 ∧
      (DSP.sendPacket hash now st destination payload pt pr).1.packets_sent =
        st.packets_sent ∧
      (DSP.sendPacket hash now st destination payload pt pr).1.bytes_transmitted =
        st.bytes_transmitted ∧
      (pt = DSP.PacketType.DATA →
        lookupA (st.node_id ++ "_" ++ toString st.sequence_counter ++ "_" ++ toString now)
            (DSP.sendPacket hash now st destination payload pt pr).1.pending_acks =
          some (DSP.mkPacket hash
            (st.node_id ++ "_" ++ toString st.sequence_counter ++ "_" ++ toString now)
            st.node_id destination pt pr payload st.sequence_counter now 86400 [] none) ∧
        DSP.ProtoEvent.ackTimerStarted
            (st.node_id ++ "_" ++ toString st.sequence_counter ++ "_" ++ toString now) ∈
          (DSP.sendPacket hash now st destination payload pt pr).2.2) := by
  intro hash now st destination payload pt pr hlen hn hr
  have hsz : ¬ payload.length > st.max_packet_size := by omega
  by_cases hpt : pt = DSP.PacketType.DATA
  · subst hpt
    simp only [DSP.sendPacket, if_neg hsz, if_pos rfl]
    rw [routePacket_no_route _ _ (by simpa [DSP.mkPacket] using hn)
      (by simpa [DSP.mkPacket] using hr)]
    refine ⟨rfl, rfl, rfl, rfl, fun _ => ⟨?_, ?_⟩⟩
    · exact lookupA_insertA_self _ _ _
    · simp [DSP.mkPacket]
  · simp only [DSP.sendPacket, if_neg hsz, if_neg hpt]
    rw [routePacket_no_route _ _ (by simpa [DSP.mkPacket] using hn)
      (by simpa [DSP.mkPacket] using hr)]
    exact ⟨rfl, rfl, rfl, rfl, fun h => absurd h hpt⟩

/-- Witness: a DATA send from a fresh node (no neighbors, no routes) to d
returns false but consumes sequence number 0, registers the packet under id
n_0_7 in pending_acks and starts its timer. -/
theorem send_packet_routing_failure_leaves_side_effects_witness :
    (DSP.sendPacket Examples.wHash 7 Examples.stA "d" [1] .DATA .NORMAL).2.1 = false ∧
      (DSP.sendPacket Examples.wHash 7 Examples.stA "d" [1] .DATA .NORMAL).1.sequence_counter =
        Examples.stA.sequence_counter + 1 ∧
      (DSP.sendPacket Examples.wHash 7 Examples.stA "d" [1] .DATA .NORMAL).1.packets_sent =
        Examples.stA.packets_sent ∧
      (DSP.sendPacket Examples.wHash 7 Examples.stA "d" [1] .DATA .NORMAL).1.bytes_transmitted =
        Examples.stA.bytes_transmitted ∧
      (DSP.PacketType.DATA = DSP.PacketType.DATA →
        lookupA (Examples.stA.node_id ++ "_" ++ toString Examples.stA.sequence_counter ++
              "_" ++ toString 7)
            (DSP.sendPacket Examples.wHash 7 Examples.stA "d" [1] .DATA .NORMAL).1.pending_acks =
          some (DSP.mkPacket Examples.wHash
            (Examples.stA.node_id ++ "_" ++ toString Examples.stA.sequence_counter ++
              "_" ++ toString 7)
            Examples.stA.node_id "d" .DATA .NORMAL [1]
            Examples.stA.sequence_counter 7 86400 [] none) ∧
        DSP.ProtoEvent.ackTimerStarted
            (Examples.stA.node_id ++ "_" ++ toString Examples.stA.sequence_counter ++
              "_" ++ toString 7) ∈
          (DSP.sendPacket Examples.wHash 7 Examples.stA "d" [1] .DATA .NORMAL).2.2) :=
  send_packet_routing_failure_leaves_side_effects Examples.wHash 7 Examples.stA "d" [1]
    .DATA .NORMAL (by decide) (by decide) (by decide)

theorem countP_flatMap {α β : Type} (q : β → Bool) (f : α → List β) :
    ∀ L : List α, (L.flatMap f).countP q = (L.map fun a => (f a).countP q).sum := by
  intro L
  induction L with
  | nil => simp
  | cons a tl ih => simp [List.countP_append, ih]

theorem sum_map_one {α : Type} : ∀ L : List α, (L.map fun _ => (1 : Nat)).sum = L.length := by
  intro L
  induction L with
  | nil => rfl
  | cons a tl ih => simp [ih]; omega

/-! ### State-shape lemmas: which fields each operation can touch -/

theorem transmitToNeighbor_state_eq (st : DSP.DeepSpaceProtocol) (n : String)
    (p : DSP.DeepSpacePacket) :
    (DSP.transmitToNeighbor st n p).1 =
      { st with link_qualities := (DSP.transmitToNeighbor st n p).1.link_qualities } :=
  rfl

theorem routePacket_state_eq (st : DSP.DeepSpaceProtocol) (p : DSP.DeepSpacePacket) :
    (DSP.routePacket st p).1 =
      { st with link_qualities := (DSP.routePacket st p).1.link_qualities } := by
  unfold DSP.routePacket
  cases h : lookupA p.destination_id st.neighbor_nodes with
  | some v => simp only [h, Option.isSome_some, if_true]; rfl
  | none =>
    simp only [h, Option.isSome_none, Bool.false_eq_true, if_false]
    cases h2 : lookupA p.destination_id st.routing_table with
    | some nh => rfl
    | none => rfl

theorem sendPacket_state_eq (hash : List Nat → String) (now : Nat)
    (st : DSP.DeepSpaceProtocol) (d : String) (pl : List Nat)
    (t : DSP.PacketType) (pr : DSP.Priority) :
    (DSP.sendPacket hash now st d pl t pr).1 =
      { st with
          sequence_counter := (DSP.sendPacket hash now st d pl t pr).1.sequence_counter
          pending_acks := (DSP.sendPacket hash now st d pl t pr).1.pending_acks
          packets_sent := (DSP.sendPacket hash now st d pl t pr).1.packets_sent
          bytes_transmitted := (DSP.sendPacket hash now st d pl t pr).1.bytes_transmitted
          link_qualities := (DSP.sendPacket hash now st d pl t pr).1.link_qualities } := by
  by_cases hsz : pl.length > st.max_packet_size
  · simp only [DSP.sendPacket, if_pos hsz]
  · by_cases ht : t = DSP.PacketType.DATA
    · simp only [DSP.sendPacket, if_neg hsz, if_pos ht]
      rw [routePacket_state_eq]
      split <;> rfl
    · simp only [DSP.sendPacket, if_neg hsz, if_neg ht]
      rw [routePacket_state_eq]
      split <;> rfl

theorem handleAck_state_eq (st : DSP.DeepSpaceProtocol) (p : DSP.DeepSpacePacket) :
    DSP.handleAck st p =
      { st with pending_acks := (DSP.handleAck st p).pending_acks } := by
  unfold DSP.handleAck
  dsimp only
  split
  · split <;> rfl
  · rfl

theorem handleNack_state_eq (st : DSP.DeepSpaceProtocol) (p : DSP.DeepSpacePacket) :
    (DSP.handleNack st p).1 =
      { st with link_qualities := (DSP.handleNack st p).1.link_qualities } := by
  unfold DSP.handleNack
  dsimp only
  split
  · split
    · rw [routePacket_state_eq]
    · rfl
  · rfl

theorem handleReceivedPacket_state_eq (hash : List Nat → String) (now : Nat)
    (st : DSP.DeepSpaceProtocol) (p : DSP.DeepSpacePacket) :
    (DSP.handleReceivedPacket hash now st p).1 =
      { st with
          sequence_counter := (DSP.handleReceivedPacket hash now st p).1.sequence_counter
          pending_acks := (DSP.handleReceivedPacket hash now st p).1.pending_acks
          received_packets := (DSP.handleReceivedPacket hash now st p).1.received_packets
          packets_sent := (DSP.handleReceivedPacket hash now st p).1.packets_sent
          bytes_transmitted := (DSP.handleReceivedPacket hash now st p).1.bytes_transmitted
          link_qualities := (DSP.handleReceivedPacket hash now st p).1.link_qualities } := by
  unfold DSP.handleReceivedPacket
  dsimp only
  split
  · rw [sendPacket_state_eq]
  · rfl

theorem forwardPacket_state_eq (now : Nat) (st : DSP.DeepSpaceProtocol)
    (p : DSP.DeepSpacePacket) :
    (DSP.forwardPacket now st p).1 =
      { st with
          packets_dropped := (DSP.forwardPacket now st p).1.packets_dropped
          link_qualities := (DSP.forwardPacket now st p).1.link_qualities } := by
  unfold DSP.forwardPacket
  dsimp only
  split
  · rfl
  · split
    · rfl
    · rw [routePacket_state_eq]

/-! ### C3: duplicate suppression within the cache window -/

theorem handleAck_keeps_filter (st : DSP.DeepSpaceProtocol) (p : DSP.DeepSpacePacket) :
    (DSP.handleAck st p).duplicate_filter = st.duplicate_filter ∧
    (DSP.handleAck st p).packet_cache_duration = st.packet_cache_duration := by
  rw [handleAck_state_eq]
  exact ⟨rfl, rfl⟩

theorem handleNack_keeps_filter (st : DSP.DeepSpaceProtocol) (p : DSP.DeepSpacePacket) :
    (DSP.handleNack st p).1.duplicate_filter = st.duplicate_filter ∧
    (DSP.handleNack st p).1.packet_cache_duration = st.packet_cache_duration := by
  rw [handleNack_state_eq]
  exact ⟨rfl, rfl⟩

theorem handleReceivedPacket_keeps_filter (hash : List Nat → String) (now : Nat)
    (st : DSP.DeepSpaceProtocol) (p : DSP.DeepSpacePacket) :
    (DSP.handleReceivedPacket hash now st p).1.duplicate_filter = st.duplicate_filter ∧
    (DSP.handleReceivedPacket hash now st p).1.packet_cache_duration =
      st.packet_cache_duration := by
  rw [handleReceivedPacket_state_eq]
  exact ⟨rfl, rfl⟩

theorem forwardPacket_keeps_filter (now : Nat) (st : DSP.DeepSpaceProtocol)
    (p : DSP.DeepSpacePacket) :
    (DSP.forwardPacket now st p).1.duplicate_filter = st.duplicate_filter ∧
    (DSP.forwardPacket now st p).1.packet_cache_duration = st.packet_cache_duration := by
  rw [forwardPacket_state_eq]
  exact ⟨rfl, rfl⟩

theorem receivePacket_first_call (hash : List Nat → String) (now raw : Nat)
    (st : DSP.DeepSpaceProtocol) (p : DSP.DeepSpacePacket)
    (hv : DSP.isValid hash p = true)
    (hnd : lookupA (p.source_id ++ "_" ++ toString p.sequence_number)
      (st.duplicate_filter.filter fun kv =>
        decide (now - kv.2 ≤ st.packet_cache_duration)) = none) :
    (∃ k, (DSP.receivePacket hash now st p raw).2.2.1 = .dispatched k) ∧
    (DSP.receivePacket hash now st p raw).1.duplicate_filter =
      (st.duplicate_filter.filter fun kv =>
        decide (now - kv.2 ≤ st.packet_cache_duration)) ++
        [(p.source_id ++ "_" ++ toString p.sequence_number, now)] ∧
    (DSP.receivePacket hash now st p raw).1.packet_cache_duration =
      st.packet_cache_duration := by
  unfold DSP.receivePacket DSP.isDuplicate
  simp only [hv, hnd, Option.isSome_none, Bool.false_eq_true, if_false,
    eq_self_iff_true, not_true, Bool.true_eq_false]
  refine ⟨⟨_, rfl⟩, ?_⟩
  rw [insertA_of_lookup_none _ _ _ hnd]
  generalize hq : (st.duplicate_filter.filter fun kv =>
    decide (now - kv.2 ≤ st.packet_cache_duration)) ++
    [(p.source_id ++ "_" ++ toString p.sequence_number, now)] = q
  by_cases hin : st.node_id ∈ p.route_history <;>
    simp only [hin, if_true, if_false] <;>
    cases hpt : p.packet_type <;>
    simp only [] <;>
    first
    | exact handleAck_keeps_filter _ _
    | exact handleNack_keeps_filter _ _
    | exact ⟨rfl, rfl⟩
    | exact ⟨trivial, trivial⟩
    | (split
       · exact handleReceivedPacket_keeps_filter _ _ _ _
       · exact forwardPacket_keeps_filter _ _ _)

theorem receivePacket_duplicate_drop (hash : List Nat → String) (now raw : Nat)
    (st' : DSP.DeepSpaceProtocol) (p₂ : DSP.DeepSpacePacket) (t : Nat)
    (hv : DSP.isValid hash p₂ = true)
    (hdupe : lookupA (p₂.source_id ++ "_" ++ toString p₂.sequence_number)
      (st'.duplicate_filter.filter fun kv =>
        decide (now - kv.2 ≤ st'.packet_cache_duration)) = some t) :
    DSP.receivePacket hash now st' p₂ raw =
      ({ st' with
          duplicate_filter :=
            st'.duplicate_filter.filter fun kv =>
              decide (now - kv.2 ≤ st'.packet_cache_duration) },
       none, .duplicateFiltered, []) := by
  unfold DSP.receivePacket DSP.isDuplicate
  simp only [hv, hdupe, Option.isSome_some, if_true, eq_self_iff_true, not_true,
    Bool.true_eq_false, if_false]

/-- C3: receiving the same (source, sequence) twice within the cache window
dispatches the first packet to its handler and silently drops the second:
the second call returns null with outcome duplicateFiltered, emits no events,
appends nothing to any route history, dispatches no handler and leaves the
whole state -- statistics such as packets_dropped included -- unchanged
except for purging expired duplicate-filter entries. -/
theorem duplicate_within_window_single_dispatch :
    ∀ (hash : List Nat → String) (now₁ now₂ raw₁ raw₂ : Nat)
      (st : DSP.DeepSpaceProtocol) (p₁ p₂ : DSP.DeepSpacePacket),
      DSP.isValid hash p₁ = true → DSP.isValid hash p₂ = true →
      p₂.source_id = p₁.source_id → p₂.sequence_number = p₁.sequence_number →
      lookupA (p₁.source_id ++ "_" ++ toString p₁.sequence_number)
        (st.duplicate_filter.filter fun kv =>
          decide (now₁ - kv.2 ≤ st.packet_cache_duration)) = none →
      now₂ - now₁ ≤ st.packet_cache_duration →
      (∃ k, (DSP.receivePacket hash now₁ st p₁ raw₁).2.2.1 = .dispatched k) ∧
      DSP.receivePacket hash now₂ (DSP.receivePacket hash now₁ st p₁ raw₁).1 p₂ raw₂ =
        ({ (DSP.receivePacket hash now₁ st p₁ raw₁).1 with
            duplicate_filter :=
              (DSP.receivePacket hash now₁ st p₁ raw₁).1.duplicate_filter.filter
                fun kv => decide (now₂ - kv.2 ≤ st.packet_cache_duration) },
         none, .duplicateFiltered, []) := by
  intro hash now₁ now₂ raw₁ raw₂ st p₁ p₂ hv₁ hv₂ hsrc hseq hnd hwin
  obtain ⟨hdisp, hfil, hdur⟩ := receivePacket_first_call hash now₁ raw₁ st p₁ hv₁ hnd
  refine ⟨hdisp, ?_⟩
  have hkey : p₂.source_id ++ "_" ++ toString p₂.sequence_number =
      p₁.source_id ++ "_" ++ toString p₁.sequence_number := by rw [hsrc, hseq]
  have hlk : lookupA (p₂.source_id ++ "_" ++ toString p₂.sequence_number)
      ((DSP.receivePacket hash now₁ st p₁ raw₁).1.duplicate_filter.filter fun kv =>
        decide (now₂ - kv.2 ≤
          (DSP.receivePacket hash now₁ st p₁ raw₁).1.packet_cache_duration)) =
      some now₁ := by
    rw [hkey, hdur, hfil, List.filter_append]
    have hpred : decide (now₂ - now₁ ≤ st.packet_cache_duration) = true := by
      simpa using hwin
    simp only [List.filter_cons, List.filter_nil, hpred, if_true]
    rw [lookupA_append _ _ _ (lookupA_filter_none _ _ _ hnd)]
    simp [lookupA]
  have hdrop := receivePacket_duplicate_drop hash now₂ raw₂
    (DSP.receivePacket hash now₁ st p₁ raw₁).1 p₂ now₁ hv₂ hlk
  rw [← hdur]
  exact hdrop

/-- Witness for C3: the same valid DATA packet received twice at the same
instant at node n; the first is dispatched, the second is filtered with the
state otherwise untouched. -/
theorem duplicate_within_window_single_dispatch_witness :
    (∃ k, (DSP.receivePacket Examples.wHash 200 Examples.stB Examples.pFwd 150).2.2.1 =
      .dispatched k) ∧
    DSP.receivePacket Examples.wHash 200
        (DSP.receivePacket Examples.wHash 200 Examples.stB Examples.pFwd 150).1
        Examples.pFwd 150 =
      ({ (DSP.receivePacket Examples.wHash 200 Examples.stB Examples.pFwd 150).1 with
          duplicate_filter :=
            (DSP.receivePacket Examples.wHash 200 Examples.stB
              Examples.pFwd 150).1.duplicate_filter.filter
              fun kv => decide (200 - kv.2 ≤ Examples.stB.packet_cache_duration) },
       none, .duplicateFiltered, []) :=
  duplicate_within_window_single_dispatch Examples.wHash 200 200 150 150
    Examples.stB Examples.pFwd Examples.pFwd (by decide) (by decide) rfl rfl
    (by decide) (by decide)

/-! ### C5: ack-timeout retry schedule -/

theorem routePacket_keeps_pending (st : DSP.DeepSpaceProtocol) (p : DSP.DeepSpacePacket) :
    (DSP.routePacket st p).1.pending_acks = st.pending_acks ∧
    (DSP.routePacket st p).1.neighbor_nodes = st.neighbor_nodes ∧
    (DSP.routePacket st p).1.max_retries = st.max_retries ∧
    (DSP.routePacket st p).1.ack_timeout = st.ack_timeout := by
  rw [routePacket_state_eq]
  exact ⟨rfl, rfl, rfl, rfl⟩

theorem routePacket_events_neighbor (st : DSP.DeepSpaceProtocol) (p : DSP.DeepSpacePacket)
    (h : (lookupA p.destination_id st.neighbor_nodes).isSome = true) :
    (DSP.routePacket st p).2.2 =
      [DSP.ProtoEvent.transmitted p.destination_id p.packet_id] := by
  unfold DSP.routePacket
  simp only [h, if_true]
  rfl

theorem handleAckTimeout_cleared (st : DSP.DeepSpaceProtocol) (pid : String)
    (h : lookupA pid st.pending_acks = none) :
    DSP.handleAckTimeout st pid = (st, false, [.timeoutSleep st.ack_timeout]) := by
  unfold DSP.handleAckTimeout
  simp only [h]

theorem handleAckTimeout_retry (st : DSP.DeepSpaceProtocol) (pid : String)
    (p : DSP.DeepSpacePacket) (hlk : lookupA pid st.pending_acks = some p)
    (hlt : p.retry_count < st.max_retries) :
    DSP.handleAckTimeout st pid =
      ((DSP.routePacket
          { st with pending_acks :=
              insertA pid { p with retry_count := p.retry_count + 1 } st.pending_acks }
          { p with retry_count := p.retry_count + 1 }).1, true,
       [DSP.ProtoEvent.timeoutSleep st.ack_timeout,
        DSP.ProtoEvent.backoffSleep ((2 : Rat) ^ p.retry_count),
        DSP.ProtoEvent.retransmitted pid] ++
       (DSP.routePacket
          { st with pending_acks :=
              insertA pid { p with retry_count := p.retry_count + 1 } st.pending_acks }
          { p with retry_count := p.retry_count + 1 }).2.2 ++
       [DSP.ProtoEvent.ackTimerStarted pid]) := by
  unfold DSP.handleAckTimeout
  simp only [hlk, hlt, if_true]

theorem handleAckTimeout_giveup (st : DSP.DeepSpaceProtocol) (pid : String)
    (p : DSP.DeepSpacePacket) (hlk : lookupA pid st.pending_acks = some p)
    (hge : ¬ p.retry_count < st.max_retries) :
    DSP.handleAckTimeout st pid =
      ({ st with pending_acks := eraseA pid st.pending_acks }, false,
       [.timeoutSleep st.ack_timeout, .deliveryFailed pid]) := by
  unfold DSP.handleAckTimeout
  simp only [hlk, hge, if_false]

theorem ackTimeoutRun_trace : ∀ (k : Nat) (st : DSP.DeepSpaceProtocol) (pid : String)
    (p : DSP.DeepSpacePacket),
    lookupA pid st.pending_acks = some p →
    (st.pending_acks.map Prod.fst).Nodup →
    (lookupA p.destination_id st.neighbor_nodes).isSome = true →
    p.retry_count + k = st.max_retries →
    lookupA pid (DSP.ackTimeoutRun (k + 1) st pid).1.pending_acks = none ∧
    (DSP.ackTimeoutRun (k + 1) st pid).2 =
      (List.range' p.retry_count k).flatMap (fun n =>
        [DSP.ProtoEvent.timeoutSleep st.ack_timeout,
         DSP.ProtoEvent.backoffSleep ((2 : Rat) ^ n),
         DSP.ProtoEvent.retransmitted pid,
         DSP.ProtoEvent.transmitted p.destination_id p.packet_id,
         DSP.ProtoEvent.ackTimerStarted pid]) ++
      [DSP.ProtoEvent.timeoutSleep st.ack_timeout,
       DSP.ProtoEvent.deliveryFailed pid] := by
  intro k
  induction k with
  | zero =>
    intro st pid p hlk hnd hnb hret
    have hge : ¬ p.retry_count < st.max_retries := by omega
    unfold DSP.ackTimeoutRun
    rw [handleAckTimeout_giveup st pid p hlk hge]
    simp only [Bool.false_eq_true, if_false, List.range', List.flatMap_nil,
      List.nil_append]
    exact ⟨lookupA_eraseA_of_nodup _ _ hnd, trivial⟩
  | succ k ih =>
    intro st pid p hlk hnd hnb hret
    have hlt : p.retry_count < st.max_retries := by omega
    have hru := handleAckTimeout_retry st pid p hlk hlt
    set p' : DSP.DeepSpacePacket := { p with retry_count := p.retry_count + 1 } with hp'
    set st1 : DSP.DeepSpaceProtocol :=
      { st with pending_acks := insertA pid p' st.pending_acks } with hst1
    have hkeep := routePacket_keeps_pending st1 p'
    have hlk2 : lookupA pid (DSP.routePacket st1 p').1.pending_acks = some p' := by
      rw [hkeep.1, hst1]
      exact lookupA_insertA_self _ _ _
    have hnd2 : ((DSP.routePacket st1 p').1.pending_acks.map Prod.fst).Nodup := by
      rw [hkeep.1, hst1]
      simpa [insertA_keys_of_lookup_some pid p' p st.pending_acks hlk] using hnd
    have hnb2 : (lookupA p'.destination_id
        (DSP.routePacket st1 p').1.neighbor_nodes).isSome = true := by
      rw [hkeep.2.1, hst1]
      exact hnb
    have hret2 : p'.retry_count + k = (DSP.routePacket st1 p').1.max_retries := by
      rw [hkeep.2.2.1, hst1]
      simp only [hp']
      omega
    obtain ⟨ihl, ihe⟩ := ih (DSP.routePacket st1 p').1 pid p' hlk2 hnd2 hnb2 hret2
    have hev : (DSP.routePacket st1 p').2.2 =
        [DSP.ProtoEvent.transmitted p.destination_id p.packet_id] := by
      have := routePacket_events_neighbor st1 p' (by rw [hst1]; exact hnb)
      simpa [hp'] using this
    have hat : (DSP.routePacket st1 p').1.ack_timeout = st.ack_timeout := by
      rw [hkeep.2.2.2, hst1]
    constructor
    · show lookupA pid (DSP.ackTimeoutRun (k + 1 + 1) st pid).1.pending_acks = none
      unfold DSP.ackTimeoutRun
      rw [hru]
      simpa using ihl
    · show (DSP.ackTimeoutRun (k + 1 + 1) st pid).2 = _
      unfold DSP.ackTimeoutRun
      rw [hru]
      simp only [if_true]
      rw [hev]
      have hrange : List.range' p.retry_count (k + 1) =
          p.retry_count :: List.range' (p.retry_count + 1) k := rfl
      rw [hrange]
      simp only [List.flatMap_cons, List.append_assoc]
      rw [ihe, hat]
      simp [hp', List.append_assoc]

/-- C5: a pending DATA packet whose ACK never arrives is retransmitted
exactly max_retries times, the n-th retransmission preceded by the
ack-timeout sleep and a backoff sleep of 2^(n-1) seconds; after the final
timeout the pending entry is deleted and exactly one delivery failure is
reported, no exception being raised; a timer firing for a packet no longer
pending (its ACK arrived) does nothing, and an ACK referencing a pending
packet clears its entry. -/
theorem ack_timeout_retry_schedule :
    (∀ (st : DSP.DeepSpaceProtocol) (pid : String) (p : DSP.DeepSpacePacket),
      lookupA pid st.pending_acks = some p → p.retry_count = 0 →
      (st.pending_acks.map Prod.fst).Nodup →
      (lookupA p.destination_id st.neighbor_nodes).isSome = true →
      DSP.AckRetrySpec st pid p) ∧
    (∀ (st₂ : DSP.DeepSpaceProtocol) (pid₂ : String),
      lookupA pid₂ st₂.pending_acks = none →
      DSP.handleAckTimeout st₂ pid₂ = (st₂, false, [.timeoutSleep st₂.ack_timeout])) ∧
    (∀ (st₃ : DSP.DeepSpaceProtocol) (ack : DSP.DeepSpacePacket) (pid₃ : String),
      64 ≤ ack.payload.length →
      stripNulls (decodeBytes (ack.payload.take 64)) = pid₃ →
      (st₃.pending_acks.map Prod.fst).Nodup →
      lookupA pid₃ (DSP.handleAck st₃ ack).pending_acks = none) := by
  refine ⟨?_, ?_, ?_⟩
  · intro st pid p hlk hr0 hnd hnb
    have hret : p.retry_count + st.max_retries = st.max_retries := by omega
    obtain ⟨hl, he⟩ := ackTimeoutRun_trace st.max_retries st pid p hlk hnd hnb hret
    rw [hr0] at he
    rw [← List.range_eq_range'] at he
    refine ⟨hl, he, ?_, ?_⟩
    · rw [he, List.countP_append, countP_flatMap]
      have hone : ((List.range st.max_retries).map fun n =>
          ([DSP.ProtoEvent.timeoutSleep st.ack_timeout,
            DSP.ProtoEvent.backoffSleep ((2 : Rat) ^ n),
            DSP.ProtoEvent.retransmitted pid,
            DSP.ProtoEvent.transmitted p.destination_id p.packet_id,
            DSP.ProtoEvent.ackTimerStarted pid].countP fun e =>
              match e with | DSP.ProtoEvent.retransmitted _ => true | _ => false)) =
          (List.range st.max_retries).map fun _ => 1 := by
        apply List.map_congr_left
        intro n _
        rfl
      rw [hone, sum_map_one, List.length_range]
      rfl
    · rw [he, List.countP_append, countP_flatMap]
      have hzero : ((List.range st.max_retries).map fun n =>
          ([DSP.ProtoEvent.timeoutSleep st.ack_timeout,
            DSP.ProtoEvent.backoffSleep ((2 : Rat) ^ n),
            DSP.ProtoEvent.retransmitted pid,
            DSP.ProtoEvent.transmitted p.destination_id p.packet_id,
            DSP.ProtoEvent.ackTimerStarted pid].countP fun e =>
              match e with | DSP.ProtoEvent.deliveryFailed _ => true | _ => false)) =
          (List.range st.max_retries).map fun _ => 0 := by
        apply List.map_congr_left
        intro n _
        rfl
      rw [hzero]
      simp
  · intro st₂ pid₂ h
    exact handleAckTimeout_cleared st₂ pid₂ h
  · intro st₃ ack pid₃ hlen hdec hnd
    by_cases hlk : (lookupA (stripNulls (decodeBytes (ack.payload.take 64)))
        st₃.pending_acks).isSome = true
    · unfold DSP.handleAck
      simp only [hlen, if_true, hlk]
      rw [hdec]
      exact lookupA_eraseA_of_nodup _ _ hnd
    · unfold DSP.handleAck
      simp only [hlen, if_true, hlk, Bool.false_eq_true, if_false]
      rw [← hdec]
      simpa using hlk

/-- Witness for C5: node stC (max_retries = 2) with pending packet q:
the run performs retransmissions with backoffs 1 and 2 seconds, then deletes
the entry and reports one failure; a firing for a non-pending id is a no-op;
the ACK referencing q clears it. -/
theorem ack_timeout_retry_schedule_witness :
    DSP.AckRetrySpec Examples.stC "q" Examples.pQ ∧
    DSP.handleAckTimeout Examples.stA "zz" =
      (Examples.stA, false, [.timeoutSleep Examples.stA.ack_timeout]) ∧
    lookupA "q" (DSP.handleAck Examples.stC Examples.ackP).pending_acks = none :=
  ⟨ack_timeout_retry_schedule.1 Examples.stC "q" Examples.pQ (by decide) (by decide)
      (by decide) (by decide),
   ack_timeout_retry_schedule.2.1 Examples.stA "zz" (by decide),
   ack_timeout_retry_schedule.2.2 Examples.stC Examples.ackP "q" (by decide) (by decide)
      (by decide)⟩

/-- C2 (divergence witness): a valid, non-duplicate DATA packet from s to d,
received at node n with empty route history and a fresh timestamp, should be
re-routed (d is a direct neighbor); instead receive_packet appends n to the
route history before dispatch, so the loop check of _forward_packet always
fires: the packet is dropped as a routing loop, packets_dropped is
incremented, and no transmission happens. -/
theorem receive_forward_always_drops_concrete :
    DSP.receivePacket Examples.wHash 200 Examples.stB Examples.pFwd 150 =
      ({ Examples.stB with
          duplicate_filter := [("s_0", 200)]
          packets_dropped := 1
          packets_received := 1
          bytes_received := 150 },
       some { Examples.pFwd with route_history := ["n"] },
       .dispatched (.forwarded .droppedLoop), []) := by
  decide

/-! ### C8: band-score monotonicity and range -/

theorem clamp01_bounds (x : Rat) : 0 ≤ Radio.clamp01 x ∧ Radio.clamp01 x ≤ 1 := by
  unfold Radio.clamp01
  constructor
  · exact le_max_left 0 _
  · exact max_le (by norm_num) (min_le_left 1 x)

theorem clamp01_mono {x y : Rat} (h : x ≤ y) : Radio.clamp01 x ≤ Radio.clamp01 y :=
  max_le_max (le_refl 0) (min_le_min (le_refl 1) h)

theorem calculateBandScore_factored (band : Radio.FrequencyBand)
    (req : Radio.TransmissionRequest) (si : Radio.SpectrumInfo)
    (cc : Option Radio.ChannelConditions) :
    Radio.calculateBandScore band req si cc =
      Radio.clamp01 ((1 - si.occupancy.getD (1 / 2)) * (1 - si.interference.getD 0) *
        (Radio.condFactor band cc * Radio.bwFactor req si * Radio.latFactor band req)) := by
  unfold Radio.calculateBandScore Radio.condFactor Radio.bwFactor Radio.latFactor
  cases cc with
  | none =>
    dsimp only
    split_ifs <;> ring_nf
  | some c =>
    dsimp only
    split_ifs <;> ring_nf

theorem condFactor_nonneg (band : Radio.FrequencyBand)
    (cc : Option Radio.ChannelConditions)
    (h : ∀ c, cc = some c → 0 ≤ c.link_quality_score) :
    0 ≤ Radio.condFactor band cc := by
  unfold Radio.condFactor
  cases cc with
  | none => norm_num
  | some c =>
    have hc := h c rfl
    split_ifs <;> positivity

theorem bwFactor_nonneg (req : Radio.TransmissionRequest) (si : Radio.SpectrumInfo) :
    0 ≤ Radio.bwFactor req si := by
  unfold Radio.bwFactor
  split_ifs <;> norm_num

theorem latFactor_nonneg (band : Radio.FrequencyBand) (req : Radio.TransmissionRequest) :
    0 ≤ Radio.latFactor band req := by
  unfold Radio.latFactor
  split_ifs <;> norm_num

/-- C8: with every other input held fixed, increasing a band's occupancy or
its interference never increases the selection score (both measured in
[0, 1], channel quality nonnegative), and the returned score always lies in
[0, 1]. -/
theorem band_score_monotone_and_bounded :
    (∀ (band : Radio.FrequencyBand) (req : Radio.TransmissionRequest)
        (cc : Option Radio.ChannelConditions) (sq bw : Option Rat)
        (occ₁ occ₂ intf : Rat),
      occ₁ ≤ occ₂ → occ₂ ≤ 1 → 0 ≤ intf → intf ≤ 1 →
      (∀ c, cc = some c → 0 ≤ c.link_quality_score) →
      Radio.calculateBandScore band req ⟨some occ₂, some intf, sq, bw⟩ cc ≤
        Radio.calculateBandScore band req ⟨some occ₁, some intf, sq, bw⟩ cc) ∧
    (∀ (band : Radio.FrequencyBand) (req : Radio.TransmissionRequest)
        (cc : Option Radio.ChannelConditions) (sq bw : Option Rat)
        (occ intf₁ intf₂ : Rat),
      0 ≤ occ → occ ≤ 1 → intf₁ ≤ intf₂ → intf₂ ≤ 1 →
      (∀ c, cc = some c → 0 ≤ c.link_quality_score) →
      Radio.calculateBandScore band req ⟨some occ, some intf₂, sq, bw⟩ cc ≤
        Radio.calculateBandScore band req ⟨some occ, some intf₁, sq, bw⟩ cc) ∧
    (∀ (band : Radio.FrequencyBand) (req : Radio.TransmissionRequest)
        (si : Radio.SpectrumInfo) (cc : Option Radio.ChannelConditions),
      0 ≤ Radio.calculateBandScore band req si cc ∧
        Radio.calculateBandScore band req si cc ≤ 1) := by
  have hrest : ∀ (band : Radio.FrequencyBand) (req : Radio.TransmissionRequest)
      (cc : Option Radio.ChannelConditions) (sq bw : Option Rat),
      (∀ c, cc = some c → 0 ≤ c.link_quality_score) →
      ∀ intf : Rat,
      0 ≤ Radio.condFactor band cc *
        Radio.bwFactor req (⟨some intf, some intf, sq, bw⟩ : Radio.SpectrumInfo) *
        Radio.latFactor band req := by
    intro band req cc sq bw hq intf
    have h1 := condFactor_nonneg band cc hq
    have h2 := bwFactor_nonneg req (⟨some intf, some intf, sq, bw⟩ : Radio.SpectrumInfo)
    have h3 := latFactor_nonneg band req
    positivity
  refine ⟨?_, ?_, ?_⟩
  · intro band req cc sq bw occ₁ occ₂ intf ho12 ho2 hi0 hi1 hq
    rw [calculateBandScore_factored, calculateBandScore_factored]
    apply clamp01_mono
    have hbw : Radio.bwFactor req (⟨some occ₂, some intf, sq, bw⟩ : Radio.SpectrumInfo) =
        Radio.bwFactor req (⟨some occ₁, some intf, sq, bw⟩ : Radio.SpectrumInfo) := rfl
    simp only [Option.getD_some] at hbw ⊢
    have hR : 0 ≤ Radio.condFactor band cc *
        Radio.bwFactor req (⟨some occ₁, some intf, sq, bw⟩ : Radio.SpectrumInfo) *
        Radio.latFactor band req := by
      have h1 := condFactor_nonneg band cc hq
      have h2 := bwFactor_nonneg req (⟨some occ₁, some intf, sq, bw⟩ : Radio.SpectrumInfo)
      have h3 := latFactor_nonneg band req
      positivity
    rw [hbw]
    apply mul_le_mul_of_nonneg_right _ hR
    apply mul_le_mul_of_nonneg_right _ (by linarith)
    linarith
  · intro band req cc sq bw occ intf₁ intf₂ hi12 hi2 ho0 ho1 hq
    rw [calculateBandScore_factored, calculateBandScore_factored]
    apply clamp01_mono
    have hbw : Radio.bwFactor req (⟨some occ, some intf₂, sq, bw⟩ : Radio.SpectrumInfo) =
        Radio.bwFactor req (⟨some occ, some intf₁, sq, bw⟩ : Radio.SpectrumInfo) := rfl
    simp only [Option.getD_some] at hbw ⊢
    have hR : 0 ≤ Radio.condFactor band cc *
        Radio.bwFactor req (⟨some occ, some intf₁, sq, bw⟩ : Radio.SpectrumInfo) *
        Radio.latFactor band req := by
      have h1 := condFactor_nonneg band cc hq
      have h2 := bwFactor_nonneg req (⟨some occ, some intf₁, sq, bw⟩ : Radio.SpectrumInfo)
      have h3 := latFactor_nonneg band req
      positivity
    rw [hbw]
    calc (1 - occ) * (1 - intf₂) *
        (Radio.condFactor band cc *
          Radio.bwFactor req (⟨some occ, some intf₁, sq, bw⟩ : Radio.SpectrumInfo) *
          Radio.latFactor band req) ≤
        (1 - occ) * (1 - intf₁) *
        (Radio.condFactor band cc *
          Radio.bwFactor req (⟨some occ, some intf₁, sq, bw⟩ : Radio.SpectrumInfo) *
          Radio.latFactor band req) := by
          apply mul_le_mul_of_nonneg_right _ hR
          apply mul_le_mul_of_nonneg_left _ (by linarith)
          linarith
      _ = _ := rfl
  · intro band req si cc
    rw [calculateBandScore_factored]
    exact clamp01_bounds _

/-- Witness for C8: on the microwave band with explicit measurements,
raising occupancy from 0.2 to 0.6 and interference from 0.1 to 0.3 does not
raise the score, and the score is within [0, 1]. -/
theorem band_score_monotone_and_bounded_witness :
    Radio.calculateBandScore .MICROWAVE Examples.req0
        ⟨some (6 / 10), some (1 / 10), some 1, some 50⟩ none ≤
      Radio.calculateBandScore .MICROWAVE Examples.req0
        ⟨some (2 / 10), some (1 / 10), some 1, some 50⟩ none ∧
    Radio.calculateBandScore .MICROWAVE Examples.req0
        ⟨some (2 / 10), some (3 / 10), some 1, some 50⟩ none ≤
      Radio.calculateBandScore .MICROWAVE Examples.req0
        ⟨some (2 / 10), some (1 / 10), some 1, some 50⟩ none ∧
    (0 ≤ Radio.calculateBandScore .MICROWAVE Examples.req0
        ⟨some (2 / 10), some (1 / 10), some 1, some 50⟩ none ∧
      Radio.calculateBandScore .MICROWAVE Examples.req0
        ⟨some (2 / 10), some (1 / 10), some 1, some 50⟩ none ≤ 1) :=
  ⟨band_score_monotone_and_bounded.1 .MICROWAVE Examples.req0 none (some 1) (some 50)
      (2 / 10) (6 / 10) (1 / 10) (by norm_num) (by norm_num) (by norm_num)
      (by norm_num) (fun c hc => by cases hc),
   band_score_monotone_and_bounded.2.1 .MICROWAVE Examples.req0 none (some 1) (some 50)
      (2 / 10) (1 / 10) (3 / 10) (by norm_num) (by norm_num) (by norm_num)
      (by norm_num) (fun c hc => by cases hc),
   band_score_monotone_and_bounded.2.2 .MICROWAVE Examples.req0
      ⟨some (2 / 10), some (1 / 10), some 1, some 50⟩ none⟩

/-! ### C9: OPTICAL band under storm weather -/

/-- C9 (counterexample to the claim as stated): the draw d9 lies within every
sampled range and has storm weather, yet the assessed OPTICAL link quality is
43/60, which is not below 0.2. -/
theorem optical_storm_quality_counterexample :
    (10 ≤ Examples.d9.snr ∧ Examples.d9.snr ≤ 30 ∧
     1 / 1000000000 ≤ Examples.d9.ber ∧ Examples.d9.ber ≤ 1 / 1000 ∧
     1 / 10 ≤ Examples.d9.atmospheric_loss ∧ Examples.d9.atmospheric_loss ≤ 5 ∧
     Examples.d9.weather = .storm) ∧
    (Radio.assessChannelConditions .OPTICAL Examples.d9).link_quality_score = 43 / 60 ∧
    ¬ (Radio.assessChannelConditions .OPTICAL Examples.d9).link_quality_score <
      1 / 5 := by
  have hb : (Radio.FrequencyBand.OPTICAL = Radio.FrequencyBand.MILLIMETER_WAVE ∨
      Radio.FrequencyBand.OPTICAL = Radio.FrequencyBand.TERAHERTZ) = False := by simp
  refine ⟨by norm_num [Examples.d9], ?_, ?_⟩ <;>
    norm_num [Radio.assessChannelConditions, Examples.d9, min_def, hb]

/-- C9 (amended): for every draw within the sampled ranges, the OPTICAL link
quality under storm weather is at most 43/60 (the bound 0.2 claimed by the
specification does not hold; 43/60 is attained at snr 30, ber 1e-9,
loss 0.1). -/
theorem optical_storm_quality_bounded :
    ∀ d : Radio.Draws, 10 ≤ d.snr → d.snr ≤ 30 →
      1 / 1000000000 ≤ d.ber → d.ber ≤ 1 / 1000 →
      1 / 10 ≤ d.atmospheric_loss → d.atmospheric_loss ≤ 5 →
      d.weather = .storm →
      (Radio.assessChannelConditions .OPTICAL d).link_quality_score ≤ 43 / 60 := by
  intro d h1 h2 h3 h4 h5 h6 hw
  have hb : (Radio.FrequencyBand.OPTICAL = Radio.FrequencyBand.MILLIMETER_WAVE ∨
      Radio.FrequencyBand.OPTICAL = Radio.FrequencyBand.TERAHERTZ) = False := by simp
  have hwc : (Radio.Weather.storm = Radio.Weather.cloudy ∨
      Radio.Weather.storm = Radio.Weather.rain ∨
      Radio.Weather.storm = Radio.Weather.storm) = True := by simp
  have f1 : min 1 (d.snr * (1 / 10) / 20) ≤ 3 / 20 := by
    have : d.snr * (1 / 10) / 20 ≤ 3 / 20 := by linarith
    exact le_trans (min_le_right _ _) this
  have f2 : min 1 ((1 : Rat) / 1000000 / d.ber) ≤ 1 := min_le_left _ _
  have f3 : min 1 (10 / (d.atmospheric_loss * 10)) ≤ 1 := min_le_left _ _
  unfold Radio.assessChannelConditions
  simp only [hw, hb, or_true, if_true, if_false]
  simp only [List.sum_cons, List.sum_nil]
  linarith

/-- Witness for the amended C9 bound at the extremal draw d9. -/
theorem optical_storm_quality_bounded_witness :
    (Radio.assessChannelConditions .OPTICAL Examples.d9).link_quality_score ≤ 43 / 60 :=
  optical_storm_quality_bounded Examples.d9 (by norm_num [Examples.d9])
    (by norm_num [Examples.d9]) (by norm_num [Examples.d9]) (by norm_num [Examples.d9])
    (by norm_num [Examples.d9]) (by norm_num [Examples.d9]) (by norm_num [Examples.d9])

/-! ### C7: the establish-link quality threshold

The source compares the assessed quality (an IEEE-double mean s / 3) against
the 0.7 threshold with a strict `>`. Over the doubles no quotient s / 3 equals
0.7 exactly (the representable quotients jump from 0.6999999999999998 to
0.7000000000000001), so the boundary case is unreachable in the program and
rejection coincides with the quality being strictly below the threshold. The
rational-valued embedding can land on the boundary exactly, so the theorem
excludes that single program-unreachable value by hypothesis. -/

/-- C7: when no link with the same id is already active and the assessed
composite quality is not exactly the threshold value (a value the source's
double arithmetic never produces, see the section note), establish_link
returns null exactly when the initially assessed quality is strictly below
the 0.7 threshold; whenever it returns a link, that link is stored in the
active-links map under its id and carries the channel conditions of the
initial assessment. -/
theorem establish_link_threshold :
    ∀ (log10 : Rat → Rat) (radio : Radio.MultibandRadio) (source destination : String)
      (band : Radio.FrequencyBand) (qos : Radio.QoS) (d : Radio.Draws),
      lookupA (source ++ "-" ++ destination ++ "-" ++ band.memberName)
        radio.active_links = none →
      (Radio.assessChannelConditions band d).link_quality_score ≠
        radio.link_quality_threshold →
      ((Radio.establishLink log10 radio source destination band qos d).2 = none ↔
        (Radio.assessChannelConditions band d).link_quality_score <
          radio.link_quality_threshold) ∧
      (∀ l, (Radio.establishLink log10 radio source destination band qos d).2 = some l →
        lookupA (source ++ "-" ++ destination ++ "-" ++ band.memberName)
          (Radio.establishLink log10 radio source destination band qos d).1.active_links =
          some l ∧
        l.channel_conditions = some (Radio.assessChannelConditions band d)) := by
  intro log10 radio source destination band qos d hfresh hne
  unfold Radio.establishLink
  simp only [hfresh]
  by_cases hq : (Radio.assessChannelConditions band d).link_quality_score >
      radio.link_quality_threshold
  · simp only [hq, if_true]
    constructor
    · constructor
      · intro h
        cases h
      · intro h
        exact absurd h (not_lt.mpr hq.le)
    · intro l hl
      cases hl
      exact ⟨lookupA_insertA_self _ _ _, rfl⟩
  · simp only [hq, if_false]
    constructor
    · exact iff_of_true trivial (lt_of_le_of_ne (not_lt.mp hq) hne)
    · intro l hl
      cases hl

/-- Witness for C7: good draws give quality 1 on a fresh radio -- away from
the threshold -- so the link is created, stored under its id and carries the
assessment. -/
theorem establish_link_threshold_witness :
    ((Radio.establishLink Examples.log0 Examples.radio0 "a" "b" .MICROWAVE
        Examples.qos0 Examples.dGood).2 = none ↔
      (Radio.assessChannelConditions .MICROWAVE Examples.dGood).link_quality_score <
        Examples.radio0.link_quality_threshold) ∧
    (∀ l, (Radio.establishLink Examples.log0 Examples.radio0 "a" "b" .MICROWAVE
        Examples.qos0 Examples.dGood).2 = some l →
      lookupA ("a" ++ "-" ++ "b" ++ "-" ++ Radio.FrequencyBand.MICROWAVE.memberName)
        (Radio.establishLink Examples.log0 Examples.radio0 "a" "b" .MICROWAVE
          Examples.qos0 Examples.dGood).1.active_links = some l ∧
      l.channel_conditions =
        some (Radio.assessChannelConditions .MICROWAVE Examples.dGood)) :=
  establish_link_threshold Examples.log0 Examples.radio0 "a" "b" .MICROWAVE
    Examples.qos0 Examples.dGood (by decide)
    (by
      have hb : (Radio.FrequencyBand.MICROWAVE = Radio.FrequencyBand.MILLIMETER_WAVE ∨
          Radio.FrequencyBand.MICROWAVE = Radio.FrequencyBand.TERAHERTZ) = False := by
        simp
      have hb3 : (Radio.FrequencyBand.MICROWAVE = Radio.FrequencyBand.OPTICAL) =
          False := by
        simp
      norm_num [Radio.assessChannelConditions, Examples.dGood, Examples.radio0,
        min_def, hb, hb3])

/-! ### C6: correctness of find_optimal_route -/

theorem isPath_congr_weight {links : List SN.CommunicationLink} {source z : String}
    {w w' : Rat} (h : SN.IsPath links source z w) (he : w = w') :
    SN.IsPath links source z w' := he ▸ h

theorem nodeChain_congr_weight {links : List SN.CommunicationLink} {c : List String}
    {w w' : Rat} (h : SN.NodeChain links c w) (he : w = w') :
    SN.NodeChain links c w' := he ▸ h

theorem isPath_weight_nonneg {links : List SN.CommunicationLink} {source : String}
    (hw : ∀ l ∈ links, 0 ≤ SN.linkWeight l) :
    ∀ {z : String} {w : Rat}, SN.IsPath links source z w → 0 ≤ w := by
  intro z w hp
  induction hp with
  | nil => exact le_refl 0
  | snoc hp l hl hs ih => exact add_nonneg ih (hw l hl)

theorem isPath_cons {links : List SN.CommunicationLink} (l : SN.CommunicationLink)
    (hl : l ∈ links) :
    ∀ {b : String} {w : Rat}, SN.IsPath links l.target_node b w →
      SN.IsPath links l.source_node b (SN.linkWeight l + w) := by
  intro b w hp
  induction hp with
  | nil =>
    exact isPath_congr_weight
      (SN.IsPath.snoc (SN.IsPath.nil) l hl rfl) (by ring)
  | snoc hp l₂ hl₂ hs₂ ih =>
    exact isPath_congr_weight (SN.IsPath.snoc ih l₂ hl₂ hs₂) (by ring)

theorem nodeChain_snoc {links : List SN.CommunicationLink} :
    ∀ {ys : List String} {w : Rat} (hc : SN.NodeChain links ys w) {z : String}
      (hz : ys.getLast? = some z) (l : SN.CommunicationLink) (hl : l ∈ links)
      (hs : l.source_node = z),
      SN.NodeChain links (ys ++ [l.target_node]) (w + SN.linkWeight l) := by
  intro ys w hc
  induction hc with
  | single a =>
    intro z hz l hl hs
    have ha : a = l.source_node := by
      rw [hs]
      simpa using hz
    rw [List.singleton_append, ha]
    exact nodeChain_congr_weight
      (SN.NodeChain.cons l hl rfl (SN.NodeChain.single l.target_node)) (by ring)
  | @cons b₀ rest₀ w₀ l₁ hl₁ hs₁ h ih =>
    intro z hz l hl hs
    have hz' : (b₀ :: rest₀).getLast? = some z := by
      rwa [List.getLast?_cons_cons] at hz
    have := ih hz' l hl hs
    exact nodeChain_congr_weight (SN.NodeChain.cons l₁ hl₁ hs₁ this) (by ring)

theorem nodeChain_isPath {links : List SN.CommunicationLink} :
    ∀ {c : List String} {w : Rat}, SN.NodeChain links c w →
      ∀ {a b : String}, c.head? = some a → c.getLast? = some b →
      SN.IsPath links a b w := by
  intro c w hc
  induction hc with
  | single x =>
    intro a b ha hb
    simp only [List.head?_cons, Option.some.injEq] at ha
    simp only [List.getLast?_singleton, Option.some.injEq] at hb
    subst ha
    subst hb
    exact SN.IsPath.nil
  | @cons b₀ rest₀ w₀ l hl hs h ih =>
    intro a b ha hb
    simp only [List.head?_cons, Option.some.injEq] at ha
    subst ha
    have hb' : (b₀ :: rest₀).getLast? = some b := by
      rwa [List.getLast?_cons_cons] at hb
    have hp := ih rfl hb'
    rw [← hs] at hp
    exact isPath_cons l hl hp

theorem prevChain_head {prev : String → Option String} :
    ∀ {v : String} {c : List String}, SN.PrevChain prev v c → c.head? = some v := by
  intro v c h
  cases h <;> rfl

theorem prevChain_congr {prev prev' : String → Option String} :
    ∀ {v : String} {c : List String}, SN.PrevChain prev v c →
      (∀ x, x ∈ c → prev' x = prev x) → SN.PrevChain prev' v c := by
  intro v c h
  induction h with
  | nil hv =>
    intro hag
    exact SN.PrevChain.nil (by rw [hag _ (by simp)]; exact hv)
  | cons hv hc ih =>
    intro hag
    refine SN.PrevChain.cons (by rw [hag _ (by simp)]; exact hv) (ih ?_)
    intro x hx
    exact hag x (by simp [hx])

theorem walkPrev_eq_of_chain {prev : String → Option String} :
    ∀ {v : String} {c : List String}, SN.PrevChain prev v c →
      ∀ {fuel : Nat}, c.length ≤ fuel → SN.walkPrev prev fuel v = c := by
  intro v c h
  induction h with
  | nil hv =>
    intro fuel hf
    cases fuel with
    | zero => simp at hf
    | succ f => simp [SN.walkPrev, hv]
  | cons hv hc ih =>
    intro fuel hf
    cases fuel with
    | zero => simp at hf
    | succ f =>
      simp only [SN.walkPrev, hv]
      rw [ih (by simpa using hf)]

theorem argminD_isSome {dist : String → WithTop Rat} (x : String) (rest : List String) :
    (SN.argminD dist (x :: rest)).isSome = true := by
  simp only [SN.argminD]
  cases SN.argminD dist rest with
  | none => rfl
  | some u => by_cases hle : dist x ≤ dist u <;> simp [hle]

theorem argminD_eq_none {dist : String → WithTop Rat} :
    ∀ {l : List String}, SN.argminD dist l = none → l = [] := by
  intro l h
  cases l with
  | nil => rfl
  | cons x rest =>
    have := @argminD_isSome dist x rest
    rw [h] at this
    simp at this

theorem argminD_mem {dist : String → WithTop Rat} :
    ∀ {l : List String} {u : String}, SN.argminD dist l = some u → u ∈ l := by
  intro l
  induction l with
  | nil => intro u h; simp [SN.argminD] at h
  | cons v rest ih =>
    intro u h
    simp only [SN.argminD] at h
    cases hr : SN.argminD dist rest with
    | none =>
      rw [hr] at h
      simp at h
      simp [h]
    | some u' =>
      rw [hr] at h
      by_cases hle : dist v ≤ dist u'
      · simp [hle] at h
        simp [h]
      · simp [hle] at h
        subst h
        exact List.mem_cons_of_mem _ (ih hr)

theorem argminD_min {dist : String → WithTop Rat} :
    ∀ {l : List String} {u : String}, SN.argminD dist l = some u →
      ∀ v, v ∈ l → dist u ≤ dist v := by
  intro l
  induction l with
  | nil => intro u h; simp [SN.argminD] at h
  | cons x rest ih =>
    intro u h v hv
    simp only [SN.argminD] at h
    cases hr : SN.argminD dist rest with
    | none =>
      have hre : rest = [] := argminD_eq_none hr
      rw [hr] at h
      simp at h
      subst h
      subst hre
      simp at hv
      subst hv
      exact le_refl _
    | some u' =>
      rw [hr] at h
      rcases List.mem_cons.mp hv with hvx | hvr
      · by_cases hle : dist x ≤ dist u'
        · simp only [hle, if_true, Option.some.injEq] at h
          rw [← h, ← hvx]
        · simp only [hle, if_false, Option.some.injEq] at h
          rw [← h, hvx]
          exact le_of_lt (lt_of_not_le hle)
      · by_cases hle : dist x ≤ dist u'
        · simp only [hle, if_true, Option.some.injEq] at h
          rw [← h]
          exact le_trans hle (ih hr v hvr)
        · simp only [hle, if_false, Option.some.injEq] at h
          rw [← h]
          exact ih hr v hvr

theorem relaxOne_decrease (current : String) (unvisited : List String)
    (dp : (String → WithTop Rat) × (String → Option String))
    (l : SN.CommunicationLink) (v : String) :
    (SN.relaxOne current unvisited dp l).1 v ≤ dp.1 v := by
  unfold SN.relaxOne
  by_cases hc : l.source_node = current ∧ l.target_node ∈ unvisited
  · rw [if_pos hc]
    dsimp only
    by_cases halt : dp.1 current + (SN.linkWeight l : WithTop Rat) < dp.1 l.target_node
    · rw [if_pos halt]
      dsimp only
      by_cases hv : v = l.target_node
      · rw [if_pos hv, hv]
        exact le_of_lt halt
      · rw [if_neg hv]
    · rw [if_neg halt]
  · rw [if_neg hc]

theorem relaxOne_keeps (current : String) (unvisited : List String)
    (dp : (String → WithTop Rat) × (String → Option String))
    (l : SN.CommunicationLink) (x : String) (hx : x ∉ unvisited) :
    (SN.relaxOne current unvisited dp l).1 x = dp.1 x ∧
    (SN.relaxOne current unvisited dp l).2 x = dp.2 x := by
  unfold SN.relaxOne
  by_cases hc : l.source_node = current ∧ l.target_node ∈ unvisited
  · rw [if_pos hc]
    dsimp only
    by_cases halt : dp.1 current + (SN.linkWeight l : WithTop Rat) < dp.1 l.target_node
    · rw [if_pos halt]
      dsimp only
      have hne : x ≠ l.target_node := fun he => hx (he ▸ hc.2)
      rw [if_neg hne, if_neg hne]
      exact ⟨rfl, rfl⟩
    · rw [if_neg halt]
      exact ⟨rfl, rfl⟩
  · rw [if_neg hc]
    exact ⟨rfl, rfl⟩

theorem foldl_relax_decrease (current : String) (unvisited : List String) :
    ∀ (ls : List SN.CommunicationLink)
      (dp : (String → WithTop Rat) × (String → Option String)) (v : String),
      (ls.foldl (SN.relaxOne current unvisited) dp).1 v ≤ dp.1 v := by
  intro ls
  induction ls with
  | nil => intro dp v; exact le_refl _
  | cons l rest ih =>
    intro dp v
    simp only [List.foldl_cons]
    exact le_trans (ih _ v) (relaxOne_decrease current unvisited dp l v)

theorem foldl_relax_keeps (current : String) (unvisited : List String) :
    ∀ (ls : List SN.CommunicationLink)
      (dp : (String → WithTop Rat) × (String → Option String)) (x : String),
      x ∉ unvisited →
      (ls.foldl (SN.relaxOne current unvisited) dp).1 x = dp.1 x ∧
      (ls.foldl (SN.relaxOne current unvisited) dp).2 x = dp.2 x := by
  intro ls
  induction ls with
  | nil => intro dp x _; exact ⟨rfl, rfl⟩
  | cons l rest ih =>
    intro dp x hx
    simp only [List.foldl_cons]
    obtain ⟨h1, h2⟩ := ih (SN.relaxOne current unvisited dp l) x hx
    obtain ⟨h3, h4⟩ := relaxOne_keeps current unvisited dp l x hx
    exact ⟨h1.trans h3, h2.trans h4⟩

theorem relaxedFrom_step {links : List SN.CommunicationLink} {current : String}
    {unvisited : List String} {dist : String → WithTop Rat}
    {prev : String → Option String} (hcur : current ∉ unvisited)
    (dp : (String → WithTop Rat) × (String → Option String))
    (hdp : SN.RelaxedFrom links current unvisited dist prev dp)
    (l : SN.CommunicationLink) (hl : l ∈ links) :
    SN.RelaxedFrom links current unvisited dist prev
      (SN.relaxOne current unvisited dp l) := by
  obtain ⟨hc, hp⟩ := hdp
  have hdp1le : ∀ v, dp.1 v ≤ dist v := by
    intro v
    rcases hp v with ⟨h1, _⟩ | ⟨_, _, hlt, _⟩
    · exact le_of_eq h1
    · exact le_of_lt hlt
  constructor
  · exact (relaxOne_keeps current unvisited dp l current hcur).1.trans hc
  · intro v
    unfold SN.relaxOne
    by_cases hcl : l.source_node = current ∧ l.target_node ∈ unvisited
    · rw [if_pos hcl]
      dsimp only
      by_cases halt : dp.1 current + (SN.linkWeight l : WithTop Rat) <
          dp.1 l.target_node
      · rw [if_pos halt]
        dsimp only
        by_cases hv : v = l.target_node
        · right
          refine ⟨hv ▸ hcl.2, ?_, ?_, l, hl, hcl.1, hv.symm, ?_⟩
          · rw [if_pos hv]
          · rw [if_pos hv, hc]
            calc dist current + (SN.linkWeight l : WithTop Rat) = dp.1 current +
                  (SN.linkWeight l : WithTop Rat) := by rw [hc]
              _ < dp.1 l.target_node := halt
              _ ≤ dist l.target_node := hdp1le _
              _ = dist v := by rw [hv]
          · rw [if_pos hv, hc]
        · rw [if_neg hv, if_neg hv]
          exact hp v
      · rw [if_neg halt]
        exact hp v
    · rw [if_neg hcl]
      exact hp v

theorem foldl_relaxedFrom {links : List SN.CommunicationLink} {current : String}
    {unvisited : List String} {dist : String → WithTop Rat}
    {prev : String → Option String} (hcur : current ∉ unvisited) :
    ∀ (ls : List SN.CommunicationLink), (∀ l, l ∈ ls → l ∈ links) →
      ∀ dp, SN.RelaxedFrom links current unvisited dist prev dp →
      SN.RelaxedFrom links current unvisited dist prev
        (ls.foldl (SN.relaxOne current unvisited) dp) := by
  intro ls
  induction ls with
  | nil => intro _ dp hdp; exact hdp
  | cons l rest ih =>
    intro hmem dp hdp
    simp only [List.foldl_cons]
    exact ih (fun x hx => hmem x (List.mem_cons_of_mem _ hx)) _
      (relaxedFrom_step hcur dp hdp l (hmem l (List.mem_cons_self _ _)))

theorem relaxAll_relaxedFrom {links : List SN.CommunicationLink} {current : String}
    {unvisited : List String} {dist : String → WithTop Rat}
    {prev : String → Option String} (hcur : current ∉ unvisited) :
    SN.RelaxedFrom links current unvisited dist prev
      (SN.relaxAll links current unvisited dist prev) :=
  foldl_relaxedFrom hcur links (fun _ h => h) (dist, prev)
    ⟨rfl, fun _ => Or.inl ⟨rfl, rfl⟩⟩

theorem foldl_relax_completion {current : String} {unvisited : List String}
    {dist : String → WithTop Rat} (hcur : current ∉ unvisited) :
    ∀ (ls : List SN.CommunicationLink)
      (dp : (String → WithTop Rat) × (String → Option String)),
      dp.1 current = dist current →
      ∀ l, l ∈ ls → l.source_node = current → l.target_node ∈ unvisited →
        (ls.foldl (SN.relaxOne current unvisited) dp).1 l.target_node ≤
          dist current + (SN.linkWeight l : WithTop Rat) := by
  intro ls
  induction ls with
  | nil => intro dp _ l hl; simp at hl
  | cons l₀ rest ih =>
    intro dp hdc l hl hsrc htgt
    simp only [List.foldl_cons]
    rcases List.mem_cons.mp hl with he | hm
    · subst he
      have hstep : (SN.relaxOne current unvisited dp l).1 l.target_node ≤
          dist current + (SN.linkWeight l : WithTop Rat) := by
        unfold SN.relaxOne
        rw [if_pos ⟨hsrc, htgt⟩]
        dsimp only
        by_cases halt : dp.1 current + (SN.linkWeight l : WithTop Rat) <
            dp.1 l.target_node
        · rw [if_pos halt]
          dsimp only
          rw [if_pos rfl, hdc]
        · rw [if_neg halt]
          rw [← hdc]
          exact le_of_not_lt halt
      exact le_trans (foldl_relax_decrease current unvisited rest _ _) hstep
    · have hkeep := (relaxOne_keeps current unvisited dp l₀ current hcur).1
      exact ih (SN.relaxOne current unvisited dp l₀) (hkeep.trans hdc) l hm hsrc htgt

theorem relaxAll_completion {links : List SN.CommunicationLink} {current : String}
    {unvisited : List String} {dist : String → WithTop Rat}
    {prev : String → Option String} (hcur : current ∉ unvisited) :
    ∀ l, l ∈ links → l.source_node = current → l.target_node ∈ unvisited →
      (SN.relaxAll links current unvisited dist prev).1 l.target_node ≤
        dist current + (SN.linkWeight l : WithTop Rat) :=
  foldl_relax_completion hcur links (dist, prev) rfl

theorem isPath_end_mem {links : List SN.CommunicationLink} {nodes : List String}
    {source : String} (hsrc : source ∈ nodes)
    (hep : ∀ l ∈ links, l.source_node ∈ nodes ∧ l.target_node ∈ nodes) :
    ∀ {z : String} {w : Rat}, SN.IsPath links source z w → z ∈ nodes := by
  intro z w hp
  cases hp with
  | nil => exact hsrc
  | snoc hp l hl hs => exact (hep l hl).2

theorem dijkstra_crux {links : List SN.CommunicationLink} {nodes : List String}
    {source : String} {O unvisited : List String} {dist : String → WithTop Rat}
    {prev : String → Option String}
    (inv : SN.DijkstraInv links nodes source O unvisited dist prev)
    (hw : ∀ l ∈ links, 0 ≤ SN.linkWeight l)
    (hep : ∀ l ∈ links, l.source_node ∈ nodes ∧ l.target_node ∈ nodes)
    (hsrc : source ∈ nodes)
    {u : String} (hu : u ∈ unvisited)
    (hmin : ∀ v, v ∈ unvisited → dist u ≤ dist v) :
    ∀ {z : String} {w : Rat}, SN.IsPath links source z w → z ∈ unvisited →
      dist u ≤ (w : WithTop Rat) := by
  intro z w hp
  induction hp with
  | nil =>
    intro hz
    have h := hmin source hz
    rw [inv.dist_source] at h
    rw [show ((0 : Rat) : WithTop Rat) = 0 from rfl]
    exact h
  | @snoc z' w' hp l hl hs ih =>
    intro hz
    by_cases hm : z' ∈ unvisited
    · have h1 := ih hm
      have h2 : (w' : WithTop Rat) ≤ ((w' + SN.linkWeight l : Rat) : WithTop Rat) := by
        rw [WithTop.coe_le_coe]
        have := hw l hl
        linarith
      exact h1.trans h2
    · have hzn : z' ∈ nodes := isPath_end_mem hsrc hep hp
      have hzO : z' ∈ O := (inv.omem z').mpr ⟨hzn, hm⟩
      have hfr := inv.frontier z' hzO l hl hs hz
      have hopt := inv.settled_opt z' hzO w' hp
      calc dist u ≤ dist l.target_node := hmin l.target_node hz
        _ ≤ dist z' + (SN.linkWeight l : WithTop Rat) := hfr
        _ ≤ (w' : WithTop Rat) + (SN.linkWeight l : WithTop Rat) :=
            add_le_add_right hopt _
        _ = ((w' + SN.linkWeight l : Rat) : WithTop Rat) := by
            rw [WithTop.coe_add]

theorem dijkstra_step_preserve {links : List SN.CommunicationLink}
    {nodes : List String} {source : String} {O unvisited : List String}
    {dist : String → WithTop Rat} {prev : String → Option String}
    (inv : SN.DijkstraInv links nodes source O unvisited dist prev)
    (hw : ∀ l ∈ links, 0 ≤ SN.linkWeight l)
    (hep : ∀ l ∈ links, l.source_node ∈ nodes ∧ l.target_node ∈ nodes)
    (hsrc : source ∈ nodes)
    {u : String} (hu : u ∈ unvisited)
    (hmin : ∀ v, v ∈ unvisited → dist u ≤ dist v) (hfin : dist u ≠ ⊤) :
    SN.DijkstraInv links nodes source (O ++ [u]) (unvisited.erase u)
      (SN.relaxAll links u (unvisited.erase u) dist prev).1
      (SN.relaxAll links u (unvisited.erase u) dist prev).2 := by
  have hcur : u ∉ unvisited.erase u := inv.nodup.not_mem_erase
  obtain ⟨hdc, hpt⟩ :=
    @relaxAll_relaxedFrom links u (unvisited.erase u) dist prev hcur
  set dp := SN.relaxAll links u (unvisited.erase u) dist prev with hdp
  have hmem_uv' : ∀ v, v ∈ unvisited.erase u → v ∈ unvisited :=
    fun v hv => List.mem_of_mem_erase hv
  have hmem_iff : ∀ v, v ∈ unvisited.erase u ↔ (v ≠ u ∧ v ∈ unvisited) :=
    fun v => inv.nodup.mem_erase_iff
  have hOnotuv : ∀ v, v ∈ O → v ∉ unvisited := fun v hv => ((inv.omem v).mp hv).2
  have hOnot' : ∀ v, v ∈ O → v ∉ unvisited.erase u :=
    fun v hv hv' => hOnotuv v hv (hmem_uv' v hv')
  have hkeep : ∀ v, v ∉ unvisited.erase u → dp.1 v = dist v ∧ dp.2 v = prev v := by
    intro v hv
    rcases hpt v with h | ⟨hvm, _⟩
    · exact h
    · exact absurd hvm hv
  have hdecr : ∀ v, dp.1 v ≤ dist v := by
    intro v
    rcases hpt v with ⟨h, _⟩ | ⟨_, _, hlt, _⟩
    · exact le_of_eq h
    · exact le_of_lt hlt
  obtain ⟨wu, hwu, hpu⟩ := inv.realizable u hfin
  have huO : u ∉ O := fun h => hOnotuv u h hu
  have crux : ∀ {z : String} {w : Rat}, SN.IsPath links source z w →
      z ∈ unvisited → dist u ≤ (w : WithTop Rat) :=
    dijkstra_crux inv hw hep hsrc hu hmin
  have hsrc_keep : dp.1 source = dist source ∧ dp.2 source = prev source := by
    rcases hpt source with h | ⟨hvm, hprev, hlt, l, hl, hls, hltg, heq⟩
    · exact h
    · exfalso
      rw [inv.dist_source, heq, hwu] at hlt
      have h1 := hw l hl
      have h2 : 0 ≤ wu := isPath_weight_nonneg hw hpu
      have h0 : (0 : WithTop Rat) ≤ (wu : WithTop Rat) +
          (SN.linkWeight l : WithTop Rat) := by
        rw [← WithTop.coe_add]
        exact_mod_cast by linarith
      exact absurd hlt (not_lt.mpr h0)
  refine ⟨inv.nodup.erase u, fun v hv => inv.sub v (hmem_uv' v hv),
    hsrc_keep.1.trans inv.dist_source, hsrc_keep.2.trans inv.prev_source,
    ?_, ?_, ?_, ?_, ?_, ?_, ?_, ?_⟩
  · -- realizable
    intro v hvfin
    rcases hpt v with ⟨h1, _⟩ | ⟨hvm, hprev, hlt, l, hl, hls, hltg, heq⟩
    · rw [h1] at hvfin ⊢
      exact inv.realizable v hvfin
    · refine ⟨wu + SN.linkWeight l, ?_, ?_⟩
      · rw [heq, hwu, WithTop.coe_add]
      · have hp2 := SN.IsPath.snoc hpu l hl hls
        rw [hltg] at hp2
        exact hp2
  · -- settled_opt
    intro v hvO w hpath
    rcases List.mem_append.mp hvO with hvO | hvu
    · rw [(hkeep v (hOnot' v hvO)).1]
      exact inv.settled_opt v hvO w hpath
    · have hvu : v = u := by simpa using hvu
      subst hvu
      rw [(hkeep v hcur).1]
      exact crux hpath hu
  · -- frontier
    intro x hxO l hl hls hltg
    rcases List.mem_append.mp hxO with hxO | hxu
    · have hold := inv.frontier x hxO l hl hls (hmem_uv' _ hltg)
      rw [(hkeep x (hOnot' x hxO)).1]
      exact le_trans (hdecr _) hold
    · have hxu : x = u := by simpa using hxu
      subst hxu
      rw [(hkeep x hcur).1]
      exact relaxAll_completion hcur l hl hls hltg
  · -- prev_spec
    intro v u₀ hpv
    rcases hpt v with ⟨hd1, hd2⟩ | ⟨hvm, hprev, hlt, l, hl, hls, hltg, heq⟩
    · rw [hd2] at hpv
      obtain ⟨hO, hvs, hvfin, l, hl, hls, hltg, heq⟩ := inv.prev_spec v u₀ hpv
      have hu₀keep := hkeep u₀ (hOnot' u₀ hO)
      refine ⟨List.mem_append_left _ hO, hvs, ?_, l, hl, hls, hltg, ?_⟩
      · rw [hd1]
        exact hvfin
      · rw [hd1, hu₀keep.1]
        exact heq
    · rw [hprev] at hpv
      have hu₀ : u₀ = u := by simpa using hpv.symm
      subst hu₀
      have hukeep := hkeep u₀ hcur
      refine ⟨List.mem_append_right _ (by simp), ?_, ?_, l, hl, hls, hltg, ?_⟩
      · intro hvs
        subst hvs
        rw [hsrc_keep.2, inv.prev_source] at hprev
        cases hprev
      · rw [heq, hwu, ← WithTop.coe_add]
        exact WithTop.coe_ne_top
      · rw [heq, hukeep.1]
  · -- prev_total
    intro v hvs hvfin
    rcases hpt v with ⟨hd1, hd2⟩ | ⟨hvm, hprev, hlt, l, hl, hls, hltg, heq⟩
    · rw [hd1] at hvfin
      obtain ⟨u₀, h⟩ := inv.prev_total v hvs hvfin
      exact ⟨u₀, hd2.trans h⟩
    · exact ⟨u, hprev⟩
  · -- onodup
    rw [List.nodup_append]
    refine ⟨inv.onodup, List.nodup_singleton u, fun a ha hb => ?_⟩
    have hau : a = u := by simpa using hb
    exact huO (hau ▸ ha)
  · -- omem
    intro v
    constructor
    · intro hv
      rcases List.mem_append.mp hv with hvO | hvu
      · exact ⟨((inv.omem v).mp hvO).1, hOnot' v hvO⟩
      · have : v = u := by simpa using hvu
        subst this
        exact ⟨inv.sub v hu, hcur⟩
    · rintro ⟨hn, hnot⟩
      by_cases hvu : v = u
      · exact List.mem_append_right _ (by simp [hvu])
      · have hnotuv : v ∉ unvisited := by
          intro hmem
          exact hnot ((hmem_iff v).mpr ⟨hvu, hmem⟩)
        exact List.mem_append_left _ ((inv.omem v).mpr ⟨hn, hnotuv⟩)
  · -- chain
    intro v hv
    rcases List.mem_append.mp hv with hvO | hvu
    · obtain ⟨c, w, pc, hlen, hlast, hnc, hdv, hsub⟩ := inv.chain v hvO
      refine ⟨c, w, prevChain_congr pc ?_, ?_, hlast, hnc, ?_, ?_⟩
      · intro x hx
        exact (hkeep x (hOnot' x (hsub x hx))).2
      · rw [List.length_append]
        omega
      · rw [(hkeep v (hOnot' v hvO)).1]
        exact hdv
      · intro x hx
        exact List.mem_append_left _ (hsub x hx)
    · have hvu : v = u := by simpa using hvu
      subst hvu
      by_cases hus : v = source
      · refine ⟨[v], 0, SN.PrevChain.nil ?_, ?_, ?_, ?_, ?_, ?_⟩
        · rw [(hkeep v hcur).2, hus]
          exact inv.prev_source
        · simp
        · simp [hus]
        · exact SN.NodeChain.single v
        · rw [(hkeep v hcur).1, hus, inv.dist_source]
          rfl
        · intro x hx
          simp at hx
          subst hx
          exact List.mem_append_right _ (by simp)
      · obtain ⟨x, hx⟩ := inv.prev_total v hus hfin
        obtain ⟨hxO, _, _, l, hl, hls, hltg, heq⟩ := inv.prev_spec v x hx
        obtain ⟨cx, wx, pcx, hlenx, hlastx, hncx, hdx, hsubx⟩ := inv.chain x hxO
        obtain ⟨t, rfl⟩ : ∃ t, cx = x :: t := by
          cases pcx with
          | nil hxn => exact ⟨[], rfl⟩
          | cons hxc hrest => exact ⟨_, rfl⟩
        refine ⟨v :: x :: t, wx + SN.linkWeight l, ?_, ?_, ?_, ?_, ?_, ?_⟩
        · refine SN.PrevChain.cons ?_ (prevChain_congr pcx ?_)
          · rw [(hkeep v hcur).2]
            exact hx
          · intro y hy
            exact (hkeep y (hOnot' y (hsubx y hy))).2
        · simp only [List.length_cons, List.length_append] at hlenx ⊢
          omega
        · rw [List.getLast?_cons_cons]
          exact hlastx
        · rw [List.reverse_cons]
          have hsn := nodeChain_snoc hncx
            (z := x) (by rw [List.getLast?_reverse]; rfl) l hl hls
          rw [hltg] at hsn
          exact hsn
        · rw [(hkeep v hcur).1, heq, hdx, WithTop.coe_add]
        · intro y hy
          rcases List.mem_cons.mp hy with hyv | hyc
          · subst hyv
            exact List.mem_append_right _ (by simp)
          · exact List.mem_append_left _ (hsubx y hyc)

theorem dijkstra_init {links : List SN.CommunicationLink} {nodes : List String}
    {source : String} (hnodes : nodes.Nodup) :
    SN.DijkstraInv links nodes source [] nodes
      (fun v => if v = source then 0 else ⊤) (fun _ => none) := by
  refine ⟨hnodes, fun v hv => hv, by simp, rfl, ?_, ?_, ?_, ?_, ?_, ?_, ?_, ?_⟩
  · -- realizable
    intro v hvfin
    by_cases hv : v = source
    · subst hv
      refine ⟨0, ?_, SN.IsPath.nil⟩
      rw [if_pos rfl]
      exact WithTop.coe_zero.symm
    · exact absurd (if_neg hv) hvfin
  · -- settled_opt
    intro v hv
    simp at hv
  · -- frontier
    intro x hx
    simp at hx
  · -- prev_spec
    intro v u h
    simp at h
  · -- prev_total
    intro v hvs hvfin
    exact absurd (if_neg hvs) hvfin
  · -- onodup
    exact List.nodup_nil
  · -- omem
    intro v
    constructor
    · intro hv
      simp at hv
    · rintro ⟨h1, h2⟩
      exact absurd h1 h2
  · -- chain
    intro v hv
    simp at hv

theorem dijkstraLoop_spec {links : List SN.CommunicationLink} {nodes : List String}
    {source target : String}
    (hw : ∀ l ∈ links, 0 ≤ SN.linkWeight l)
    (hep : ∀ l ∈ links, l.source_node ∈ nodes ∧ l.target_node ∈ nodes)
    (hsrc : source ∈ nodes) :
    ∀ (fuel : Nat) (O unvisited : List String) (dist : String → WithTop Rat)
      (prev : String → Option String),
      SN.DijkstraInv links nodes source O unvisited dist prev →
      target ∈ unvisited → unvisited.length < fuel →
      ∃ O' unvisited',
        SN.DijkstraInv links nodes source O' unvisited'
          (SN.dijkstraLoop links target fuel unvisited dist prev).1
          (SN.dijkstraLoop links target fuel unvisited dist prev).2 ∧
        target ∈ unvisited' ∧
        (∀ w : Rat, SN.IsPath links source target w →
          (SN.dijkstraLoop links target fuel unvisited dist prev).1 target ≤
            (w : WithTop Rat)) := by
  intro fuel
  induction fuel with
  | zero =>
    intro O unvisited dist prev inv htgt hlen
    exact absurd hlen (Nat.not_lt_zero _)
  | succ f ih =>
    intro O unvisited dist prev inv htgt hlen
    cases harg : SN.argminD dist unvisited with
    | none =>
      have := argminD_eq_none harg
      subst this
      simp at htgt
    | some u =>
      have humem := argminD_mem harg
      have hmin := argminD_min harg
      by_cases hfin : dist u = ⊤
      · have hloop : SN.dijkstraLoop links target (f + 1) unvisited dist prev =
            (dist, prev) := by
          simp [SN.dijkstraLoop, harg, hfin]
        rw [hloop]
        refine ⟨O, unvisited, inv, htgt, ?_⟩
        intro w hp
        have hc := dijkstra_crux inv hw hep hsrc humem hmin hp htgt
        rw [hfin] at hc
        exact absurd hc (not_le.mpr (WithTop.coe_lt_top w))
      · by_cases htu : u = target
        · have hloop : SN.dijkstraLoop links target (f + 1) unvisited dist prev =
              (dist, prev) := by
            simp [SN.dijkstraLoop, harg, hfin, htu]
          rw [hloop]
          refine ⟨O, unvisited, inv, htgt, ?_⟩
          intro w hp
          have hc := dijkstra_crux inv hw hep hsrc humem hmin hp htgt
          rw [htu] at hc
          exact hc
        · have hloop : SN.dijkstraLoop links target (f + 1) unvisited dist prev =
              SN.dijkstraLoop links target f (unvisited.erase u)
                (SN.relaxAll links u (unvisited.erase u) dist prev).1
                (SN.relaxAll links u (unvisited.erase u) dist prev).2 := by
            simp [SN.dijkstraLoop, harg, hfin, htu]
          rw [hloop]
          have inv' := dijkstra_step_preserve inv hw hep hsrc humem hmin hfin
          have htgt' : target ∈ unvisited.erase u :=
            inv.nodup.mem_erase_iff.mpr ⟨fun h => htu h.symm, htgt⟩
          have hpos : 0 < unvisited.length := List.length_pos_of_mem humem
          have hlen' : (unvisited.erase u).length < f := by
            rw [List.length_erase_of_mem humem]
            omega
          exact ih (O ++ [u]) (unvisited.erase u) _ _ inv' htgt' hlen'

theorem findOptimalRoute_eq {net : SN.SpaceNetwork} {source target : String}
    (hsrc : source ∈ net.nodes) (htgt : target ∈ net.nodes)
    (hst : source ≠ target) :
    SN.findOptimalRoute net source target =
      (if ((SN.dijkstraLoop net.links target (net.nodes.length + 1) net.nodes
              (fun v => if v = source then 0 else ⊤) (fun _ => none)).2
            target).isNone ∧ source ≠ target then []
       else (SN.walkPrev
          (SN.dijkstraLoop net.links target (net.nodes.length + 1) net.nodes
            (fun v => if v = source then 0 else ⊤) (fun _ => none)).2
          (net.nodes.length + 1) target).reverse) := by
  simp only [SN.findOptimalRoute]
  rw [if_neg (by simp [hsrc, htgt]), if_neg hst]

/-- C6: on a network whose registered node ids are distinct, whose link
endpoints are registered, and whose link weights latency * (2 - quality_score)
are nonnegative, find_optimal_route answers every query correctly: it returns
[source] for source = target, [] when no directed link path from source to
target exists, and otherwise a chain of nodes from source to target realized
link by link in the current link set whose total weight is a lower bound of
the total weight of every directed path from source to target. -/
theorem find_optimal_route_correct (net : SN.SpaceNetwork) (source target : String)
    (hnodes : net.nodes.Nodup) (hsrc : source ∈ net.nodes)
    (htgt : target ∈ net.nodes)
    (hep : ∀ l ∈ net.links, l.source_node ∈ net.nodes ∧ l.target_node ∈ net.nodes)
    (hw : ∀ l ∈ net.links, 0 ≤ SN.linkWeight l) :
    SN.RouteCorrect net source target := by
  refine ⟨?_, ?_, ?_⟩
  · intro hst
    simp [SN.findOptimalRoute, hsrc, htgt, hst]
  · -- unreachable target: the predecessor of the target is never set
    intro hst hnopath
    rw [findOptimalRoute_eq hsrc htgt hst]
    obtain ⟨O', unvisited', inv', htgt', hminimal⟩ :=
      dijkstraLoop_spec hw hep hsrc (net.nodes.length + 1) [] net.nodes
        (fun v => if v = source then 0 else ⊤) (fun _ => none)
        (dijkstra_init hnodes) htgt (Nat.lt_succ_self _)
    set dp := SN.dijkstraLoop net.links target (net.nodes.length + 1) net.nodes
      (fun v => if v = source then 0 else ⊤) (fun _ => none) with hdp
    have hnone : dp.2 target = none := by
      cases hpt : dp.2 target with
      | none => rfl
      | some x =>
        obtain ⟨_, _, hfin, _⟩ := inv'.prev_spec target x hpt
        obtain ⟨w, _, hp⟩ := inv'.realizable target hfin
        exact absurd ⟨w, hp⟩ hnopath
    rw [if_pos ⟨by rw [hnone]; rfl, hst⟩]
  · -- reachable target: reconstruct the chain recorded by the predecessors
    intro hst w hpath
    rw [findOptimalRoute_eq hsrc htgt hst]
    obtain ⟨O', unvisited', inv', htgt', hminimal⟩ :=
      dijkstraLoop_spec hw hep hsrc (net.nodes.length + 1) [] net.nodes
        (fun v => if v = source then 0 else ⊤) (fun _ => none)
        (dijkstra_init hnodes) htgt (Nat.lt_succ_self _)
    set dp := SN.dijkstraLoop net.links target (net.nodes.length + 1) net.nodes
      (fun v => if v = source then 0 else ⊤) (fun _ => none) with hdp
    have hfin : dp.1 target ≠ ⊤ := by
      intro h
      have hc := hminimal w hpath
      rw [h] at hc
      exact absurd hc (not_le.mpr (WithTop.coe_lt_top w))
    obtain ⟨x, hprevt⟩ := inv'.prev_total target (Ne.symm hst) hfin
    obtain ⟨hxO, _, _, l, hl, hls, hltg, heqt⟩ := inv'.prev_spec target x hprevt
    obtain ⟨cx, wx, pcx, hlenx, hlastx, hncx, hdx, hsubx⟩ := inv'.chain x hxO
    obtain ⟨t, rfl⟩ : ∃ t, cx = x :: t := by
      cases pcx with
      | nil hxn => exact ⟨[], rfl⟩
      | cons hxc hrest => exact ⟨_, rfl⟩
    have pc : SN.PrevChain dp.2 target (target :: x :: t) :=
      SN.PrevChain.cons hprevt pcx
    have hOlen : O'.length ≤ net.nodes.length :=
      (inv'.onodup.subperm fun v hv => ((inv'.omem v).mp hv).1).length_le
    have hclen : (target :: x :: t).length ≤ net.nodes.length + 1 := by
      simp only [List.length_cons] at hlenx ⊢
      omega
    have hwalk : SN.walkPrev dp.2 (net.nodes.length + 1) target =
        target :: x :: t := walkPrev_eq_of_chain pc hclen
    rw [if_neg (by simp [hprevt]), hwalk]
    have hncroute : SN.NodeChain net.links ((target :: x :: t).reverse)
        (wx + SN.linkWeight l) := by
      rw [List.reverse_cons]
      have hsn := nodeChain_snoc hncx (z := x)
        (by rw [List.getLast?_reverse]; rfl) l hl hls
      rw [hltg] at hsn
      exact hsn
    have hhead : ((target :: x :: t).reverse).head? = some source := by
      rw [List.head?_reverse, List.getLast?_cons_cons]
      exact hlastx
    have hlast : ((target :: x :: t).reverse).getLast? = some target := by
      rw [List.getLast?_reverse, List.head?_cons]
    refine ⟨wx + SN.linkWeight l, hncroute, hhead, hlast,
      nodeChain_isPath hncroute hhead hlast, ?_⟩
    intro w' hp'
    have h1 := hminimal w' hp'
    have h2 : dp.1 target = ((wx + SN.linkWeight l : Rat) : WithTop Rat) := by
      rw [heqt, hdx, ← WithTop.coe_add]
    rw [h2] at h1
    exact_mod_cast h1

theorem find_optimal_route_correct_witness :
    SN.RouteCorrect Examples.net0 "a" "c" :=
  find_optimal_route_correct Examples.net0 "a" "c"
    (by decide) (by decide) (by decide)
    (by
      intro l hl
      simp only [Examples.net0, List.mem_cons, List.not_mem_nil, or_false] at hl
      rcases hl with rfl | rfl | rfl <;> exact ⟨by decide, by decide⟩)
    (by
      intro l hl
      simp only [Examples.net0, List.mem_cons, List.not_mem_nil, or_false] at hl
      rcases hl with rfl | rfl | rfl <;> norm_num [SN.linkWeight])

end IoST
